import Mathlib

/-!
# Job reconciliation of the workflow controller

A shallow embedding of `internal/deprecated/workflow/job.go`: the three-phase
(cleanup, create, track) handling of one out-of-band job, as a function from
the reconciler state to an outcome and a new state.

* Go `error` values are `Option GoError` (`none` is `nil`).
* The resource store behind `s.client` is an arbitrary state `σ` with arbitrary
  `Get`, `Delete` and `Create` transition functions (`Env`); every request the
  code issues is appended to the ghost field `state.requests`.
* The backoff policy is an arbitrary state `β` with a `NextBackOff` function;
  every `time.Sleep` is appended to the ghost field `state.sleeps`.
* A Go map is `Option (String → Option V)`: `none` is the nil map, which reads
  as empty and cannot be assigned to.
* A run-time panic is the `Outcome.panicked` constructor.
* Logging (`journal.Log`) and the context argument do not influence any result
  and are left out.
-/

set_option autoImplicit false

/-! ## Go errors -/

/-- A Go `error` value: a leaf error carrying its text and whether the API
machinery classifies it as "not found", or an error made by `fmt.Errorf` with
the `%w` verb, which carries its own text and the error it wraps. -/
inductive GoError where
  | errorString (msg : String) (notFound : Bool)
  | wrapError (msg : String) (err : GoError)
deriving DecidableEq, Repr

namespace GoError

/-- Method `Error()` of a Go error: its text. -/
def Error : GoError → String
  | errorString msg _ => msg
  | wrapError msg _ => msg

/-- Result of `apierrors.IsNotFound`: looks through the chain of wrapped errors. -/
def IsNotFound : GoError → Bool
  | errorString _ nf => nf
  | wrapError _ e => IsNotFound e

end GoError

namespace fmt

/-- Result of `fmt.Errorf(format, err)` for a format that is a fixed text `pre`
followed by `%w`. -/
def Errorf_w (pre : String) (err : GoError) : GoError :=
  GoError.wrapError (pre ++ err.Error) err

/-- Result of `fmt.Errorf(text)` for a text without verbs. -/
def Errorf (text : String) : GoError :=
  GoError.errorString text false

/-- Result of `fmt.Sprintf(format, err)` for a format that is a fixed text
`pre` followed by `%v`. -/
def Sprintf_v (pre : String) (err : GoError) : String :=
  pre ++ err.Error

/-- Lower-case hexadecimal digit of a number below 16. -/
def hexDigit (n : Nat) : Char :=
  if n < 10 then Char.ofNat (48 + n) else Char.ofNat (87 + n)

/-- The `width` lower-case hexadecimal digits of `n`, most significant first. -/
def hexFixed : Nat → Nat → List Char
  | 0, _ => []
  | width + 1, n => hexFixed width (n / 16) ++ [hexDigit (n % 16)]

/-- One rune of `strconv.Quote`: the double quote and the backslash are
backslashed, printable runes stand for themselves, the rest is escaped.
`isPrint` is `unicode.IsPrint` on the runes outside ASCII. -/
def quoteRune (isPrint : Char → Bool) (c : Char) : List Char :=
  let r := c.toNat
  if r = 34 ∨ r = 92 then [Char.ofNat 92, c]
  else if (32 ≤ r ∧ r < 127) ∨ (128 ≤ r ∧ isPrint c = true) then [c]
  else if r = 7 then [Char.ofNat 92, 'a']
  else if r = 8 then [Char.ofNat 92, 'b']
  else if r = 12 then [Char.ofNat 92, 'f']
  else if r = 10 then [Char.ofNat 92, 'n']
  else if r = 13 then [Char.ofNat 92, 'r']
  else if r = 9 then [Char.ofNat 92, 't']
  else if r = 11 then [Char.ofNat 92, 'v']
  else if r < 32 ∨ r = 127 then [Char.ofNat 92, 'x'] ++ hexFixed 2 r
  else if r < 65536 then [Char.ofNat 92, 'u'] ++ hexFixed 4 r
  else [Char.ofNat 92, 'U'] ++ hexFixed 8 r

/-- The verb `%q` applied to a string (`strconv.Quote`). -/
def quote (isPrint : Char → Bool) (s : String) : String :=
  String.mk ([Char.ofNat 34] ++ s.data.flatMap (quoteRune isPrint) ++ [Char.ofNat 34])

end fmt

/-! ## Kubernetes API machinery -/

/-- Instants of time, counted from the zero instant. -/
abbrev Time := Nat

namespace metav1

/-- Type `metav1.ConditionStatus`. -/
inductive ConditionStatus where
  | ConditionTrue
  | ConditionFalse
  | ConditionUnknown
deriving DecidableEq, Repr

/-- Type `metav1.DeletionPropagation`. -/
inductive DeletionPropagation where
  | DeletePropagationOrphan
  | DeletePropagationBackground
  | DeletePropagationForeground
deriving DecidableEq, Repr

/-- Method `IsZero` of `*metav1.Time`: a nil pointer and the zero instant are zero. -/
def IsZero : Option Time → Bool
  | none => true
  | some t => t == 0

end metav1

namespace reconcile

/-- Type `reconcile.Result`. -/
structure Result where
  Requeue : Bool := false
  RequeueAfter : Int := 0
deriving DecidableEq, Repr

end reconcile

/-! ## The external job resource (rufio) -/

namespace rufio

/-- One step of an automation job. The reconciler hands actions through
unchanged, so only their identity matters here. -/
structure Action where
  name : String
deriving DecidableEq, Repr

/-- Type `rufio.JobConditionType`, the condition types the reconciler reads. -/
inductive JobConditionType where
  | JobCompleted
  | JobFailed
  | JobRunning
deriving DecidableEq, Repr

/-- Type `rufio.ConditionStatus`. -/
inductive ConditionStatus where
  | ConditionTrue
  | ConditionFalse
deriving DecidableEq, Repr

/-- Type `rufio.JobCondition`. -/
structure JobCondition where
  Type_ : JobConditionType
  Status : ConditionStatus
deriving DecidableEq, Repr

/-- Type `rufio.MachineRef`. -/
structure MachineRef where
  Name : String := ""
  Namespace : String := ""
deriving DecidableEq, Repr

/-- Type `rufio.JobSpec`. -/
structure JobSpec where
  MachineRef : MachineRef := {}
  Tasks : List Action := []
deriving DecidableEq, Repr

/-- Type `rufio.Job`, with the object metadata the reconciler reads or writes
flattened into it. The default values are the zero value `rufio.Job{}`. -/
structure Job where
  Name : String := ""
  Namespace : String := ""
  UID : String := ""
  DeletionTimestamp : Option Time := none
  Annotations : List (String × String) := []
  Labels : List (String × String) := []
  Spec : JobSpec := {}
  Conditions : List JobCondition := []
deriving DecidableEq, Repr

/-- Method `HasCondition` of a job: the first condition of the given type
decides, by its status. -/
def Job.HasCondition (j : Job) (cType : JobConditionType) (cStatus : ConditionStatus) : Bool :=
  match j.Conditions.find? (fun c => c.Type_ == cType) with
  | some c => c.Status == cStatus
  | none => false

/-- Method `GetUID` of a job. -/
def Job.GetUID (j : Job) : String := j.UID

end rufio

/-! ## The controller-runtime client -/

namespace client

/-- Type `client.ObjectKey`. -/
structure ObjectKey where
  Name : String
  Namespace : String
deriving DecidableEq, Repr

/-- Type `client.DeleteOption`, the two options the reconciler passes. -/
inductive DeleteOption where
  | GracePeriodSeconds (seconds : Int)
  | PropagationPolicy (policy : metav1.DeletionPropagation)
deriving DecidableEq, Repr

/-- Function `client.IgnoreNotFound`: nil for a "not found" error, the error
itself otherwise. -/
def IgnoreNotFound : Option GoError → Option GoError
  | none => none
  | some e => if e.IsNotFound then none else some e

end client

/-! ## The workflow resource (api/v1alpha1) -/

namespace v1alpha1

/-- Modelled from the spec: type `JobStatus` of package `api/v1alpha1`, whose
declaration is not among the sources. The spec gives its three fields; the
names are the ones `job.go` uses. -/
structure JobStatus where
  UID : String := ""
  ExistingJobDeleted : Bool := false
  Complete : Bool := false
deriving DecidableEq, Repr

/-- Modelled from the spec: the condition types of package `api/v1alpha1` that
`job.go` names; their declaration is not among the sources. -/
inductive WorkflowConditionType where
  | NetbootJobFailed
  | NetbootJobComplete
  | NetbootJobSetupFailed
  | NetbootJobSetupComplete
deriving DecidableEq, Repr

/-- Modelled from the spec: type `WorkflowCondition` of package `api/v1alpha1`
(type, status, reason, message, time). -/
structure WorkflowCondition where
  Type_ : WorkflowConditionType
  Status : metav1.ConditionStatus
  Reason : String
  Message : String
  Time : Option Time
deriving DecidableEq, Repr

/-- A Go `map[string]JobStatus`: `none` is the nil map. -/
abbrev JobsMap := Option (String → Option JobStatus)

/-- Map read `m[k]`: the zero value when the key is absent or the map is nil. -/
def JobsMap.get (m : JobsMap) (k : String) : JobStatus :=
  match m with
  | none => {}
  | some f => (f k).getD {}

/-- Map assignment `m[k] = v`: `none` when the map is nil (Go panics with
"assignment to entry in nil map"). -/
def JobsMap.set (m : JobsMap) (k : String) (v : JobStatus) : Option JobsMap :=
  match m with
  | none => none
  | some f => some (some (fun k2 => if k2 = k then some v else f k2))

/-- Modelled from the spec: type `BootOptionsStatus`, holding the job statuses
by job name. -/
structure BootOptionsStatus where
  Jobs : JobsMap := none

/-- Modelled from the spec: type `WorkflowStatus`. -/
structure WorkflowStatus where
  BootOptions : BootOptionsStatus := {}
  Conditions : List WorkflowCondition := []

/-- Modelled from the spec: method `SetCondition` of `WorkflowStatus`, which is
not among the sources. Conditions are keyed by type and the latest write per
type wins: a condition of the same type is overwritten in place, a condition of
a new type is appended. -/
def setConditionList : List WorkflowCondition → WorkflowCondition → List WorkflowCondition
  | [], wc => [wc]
  | c :: cs, wc => if c.Type_ = wc.Type_ then wc :: cs else c :: setConditionList cs wc

/-- Modelled from the spec: method `SetCondition` on the whole status. -/
def WorkflowStatus.SetCondition (w : WorkflowStatus) (wc : WorkflowCondition) : WorkflowStatus :=
  { w with Conditions := setConditionList w.Conditions wc }

/-- Modelled from the spec: type `Workflow`, the fields `job.go` reads. -/
structure Workflow where
  Name : String := ""
  Namespace : String := ""
  HardwareRef : String := ""
  Status : WorkflowStatus := {}

/-- Modelled from the spec: type `BMCRef` of a hardware record. -/
structure BMCRef where
  Name : String
deriving DecidableEq, Repr

/-- Modelled from the spec: type `Hardware`, a machine record that may
reference a BMC (`Spec.BMCRef` is a pointer, `none` is nil). -/
structure Hardware where
  Name : String
  BMCRef : Option BMCRef
deriving DecidableEq, Repr

end v1alpha1

namespace workflow

open v1alpha1

/-! ## job.go -/

/-- Type `jobName`. -/
abbrev jobName := String

def jobNameNetboot : jobName := "netboot"
def jobNameISOMount : jobName := "iso-mount"
def jobNameISOEject : jobName := "iso-eject"

/-- Method `String` of `jobName`. -/
def jobName.String (j : jobName) : String := j

/-- A request sent to the resource store. -/
inductive Request where
  | get (key : client.ObjectKey)
  | delete (obj : rufio.Job) (opts : List client.DeleteOption)
  | create (obj : rufio.Job)
  | hardwareFrom (hardwareRef : String) (ns : String)
deriving DecidableEq, Repr

/-- The collaborators of the reconciler, with arbitrary behaviour: the store
behind `s.client` over its state `σ`, the lookup `hardwareFrom` (a function of
this package that is not among the sources; it reads the hardware of the
workflow from the store), the backoff policy over its state `β`, the clock, and
`unicode.IsPrint`. -/
structure Env (σ β : Type) where
  Get : σ → client.ObjectKey → Except GoError rufio.Job × σ
  Delete : σ → rufio.Job → List client.DeleteOption → Option GoError × σ
  Create : σ → rufio.Job → Option GoError × σ
  hardwareFrom : σ → Workflow → Except GoError Hardware × σ
  NextBackOff : β → Int × β
  Now : σ → Time
  IsPrint : Char → Bool

/-- Type `state`: the client (here the state of the store it talks to), the
workflow and the backoff; `requests` and `sleeps` are ghost fields recording
the store requests issued and the durations slept, oldest first. -/
structure state (σ β : Type) where
  client : σ
  workflow : Workflow
  backoff : β
  requests : List Request := []
  sleeps : List Int := []

/-- How a call ends: it returns a value, or it panics; either way in a state. -/
inductive Outcome (α S : Type) where
  | returned (val : α) (st : S)
  | panicked (msg : String) (st : S)

/-- State in which a call ends. -/
def Outcome.st {α S : Type} : Outcome α S → S
  | returned _ st => st
  | panicked _ st => st

/-- Value a call returns, if it returns. -/
def Outcome.val? {α S : Type} : Outcome α S → Option α
  | returned v _ => some v
  | panicked _ _ => none

section
variable {σ β : Type}

/-- The job status the workflow holds for a name (a map read). -/
def state.job (s : state σ β) (name : jobName) : JobStatus :=
  s.workflow.Status.BootOptions.Jobs.get name.String

/-- The state with the job map replaced. -/
def state.withJobs (s : state σ β) (m : JobsMap) : state σ β :=
  { s with
    workflow :=
      { s.workflow with
        Status := { s.workflow.Status with
                    BootOptions := { s.workflow.Status.BootOptions with Jobs := m } } } }

/-- The state after `s.workflow.Status.SetCondition(wc)`. -/
def state.setCondition (s : state σ β) (wc : WorkflowCondition) : state σ β :=
  { s with workflow := { s.workflow with Status := s.workflow.Status.SetCondition wc } }

/-- Function `deleteExisting`. -/
def deleteExisting (env : Env σ β) (s : state σ β) (name : jobName) :
    Outcome (reconcile.Result × Option GoError) (state σ β) :=
  let existingJob : rufio.Job := { Name := name.String, Namespace := s.workflow.Namespace }
  let opts : List client.DeleteOption :=
    [client.DeleteOption.GracePeriodSeconds 0,
     client.DeleteOption.PropagationPolicy metav1.DeletionPropagation.DeletePropagationForeground]
  let r := env.Delete s.client existingJob opts
  let s1 : state σ β := { s with client := r.2, requests := s.requests ++ [Request.delete existingJob opts] }
  match client.IgnoreNotFound r.1 with
  | some err =>
    Outcome.returned ({}, some (fmt.Errorf_w "error deleting job.bmc.tinkerbell.org object: " err)) s1
  | none =>
    let jStatus := s1.workflow.Status.BootOptions.Jobs.get name.String
    let jStatus := { jStatus with ExistingJobDeleted := true }
    let jStatus := { jStatus with UID := "" }
    let jStatus := { jStatus with Complete := false }
    match s1.workflow.Status.BootOptions.Jobs.set name.String jStatus with
    | none => Outcome.panicked "assignment to entry in nil map" s1
    | some m => Outcome.returned ({ Requeue := true }, none) (s1.withJobs m)

/-- Function `create`. Reading `hw.Spec.BMCRef.Name` through a nil `BMCRef`
panics. -/
def create (env : Env σ β) (s : state σ β) (name : String) (hw : Hardware)
    (ns : String) (tasks : List rufio.Action) : Outcome (Option GoError) (state σ β) :=
  match hw.BMCRef with
  | none => Outcome.panicked "runtime error: invalid memory address or nil pointer dereference" s
  | some bmc =>
    let obj : rufio.Job :=
      { Name := name
        Namespace := ns
        Annotations := [("tink-controller-auto-created", "true")]
        Labels := [("tink-controller-auto-created", "true")]
        Spec := { MachineRef := { Name := bmc.Name, Namespace := ns }, Tasks := tasks } }
    let r := env.Create s.client obj
    let s1 : state σ β := { s with client := r.2, requests := s.requests ++ [Request.create obj] }
    match r.1 with
    | some err =>
      Outcome.returned
        (some (fmt.Errorf_w "error creating job.bmc.tinkerbell.org object for netbooting machine: " err)) s1
    | none => Outcome.returned none s1

/-- Function `createJob`. -/
def createJob (env : Env σ β) (s : state σ β) (actions : List rufio.Action) (name : jobName) :
    Outcome (reconcile.Result × Option GoError) (state σ β) :=
  let key : client.ObjectKey := { Name := name.String, Namespace := s.workflow.Namespace }
  let g := env.Get s.client key
  let s1 : state σ β := { s with client := g.2, requests := s.requests ++ [Request.get key] }
  match g.1 with
  | Except.ok rj =>
    if !metav1.IsZero rj.DeletionTimestamp then
      Outcome.returned ({ Requeue := true }, none) s1
    else
      let jStatus := s1.workflow.Status.BootOptions.Jobs.get name.String
      let jStatus := { jStatus with UID := rj.GetUID }
      match s1.workflow.Status.BootOptions.Jobs.set name.String jStatus with
      | none => Outcome.panicked "assignment to entry in nil map" s1
      | some m => Outcome.returned ({ Requeue := true }, none) (s1.withJobs m)
  | Except.error _ =>
    let h := env.hardwareFrom s1.client s1.workflow
    let s2 : state σ β :=
      { s1 with client := h.2
                requests := s1.requests ++ [Request.hardwareFrom s1.workflow.HardwareRef s1.workflow.Namespace] }
    match h.1 with
    | Except.error err => Outcome.returned ({}, some (fmt.Errorf_w "error getting hardware: " err)) s2
    | Except.ok hw =>
      if hw.BMCRef = none then
        Outcome.returned
          ({}, some (fmt.Errorf ("hardware " ++ fmt.quote env.IsPrint hw.Name ++ " does not have a BMC"))) s2
      else
        match create env s2 name.String hw s2.workflow.Namespace actions with
        | Outcome.panicked msg st => Outcome.panicked msg st
        | Outcome.returned (some err) st =>
          Outcome.returned ({}, some (fmt.Errorf_w "error creating job: " err)) st
        | Outcome.returned none st => Outcome.returned ({ Requeue := true }, none) st

/-- Type `trackedState`. -/
inductive trackedState where
  | trackedStateComplete
  | trackedStateRunning
  | trackedStateError
  | trackedStateFailed
deriving DecidableEq, Repr

/-- Function `trackRunningJob`. -/
def trackRunningJob (env : Env σ β) (s : state σ β) (name : jobName) :
    Outcome (reconcile.Result × trackedState × Option GoError) (state σ β) :=
  let key : client.ObjectKey := { Name := name.String, Namespace := s.workflow.Namespace }
  let g := env.Get s.client key
  let s1 : state σ β := { s with client := g.2, requests := s.requests ++ [Request.get key] }
  match g.1 with
  | Except.error err =>
    Outcome.returned ({}, trackedState.trackedStateError, some (fmt.Errorf_w "error getting job: " err)) s1
  | Except.ok rj =>
    if rj.HasCondition rufio.JobConditionType.JobFailed rufio.ConditionStatus.ConditionTrue then
      Outcome.returned ({}, trackedState.trackedStateFailed, some (fmt.Errorf "job failed")) s1
    else if rj.HasCondition rufio.JobConditionType.JobCompleted rufio.ConditionStatus.ConditionTrue then
      let jStatus := s1.workflow.Status.BootOptions.Jobs.get name.String
      let jStatus := { jStatus with Complete := true }
      match s1.workflow.Status.BootOptions.Jobs.set name.String jStatus with
      | none => Outcome.panicked "assignment to entry in nil map" s1
      | some m => Outcome.returned ({}, trackedState.trackedStateComplete, none) (s1.withJobs m)
    else
      let b := env.NextBackOff s1.backoff
      let s2 : state σ β := { s1 with backoff := b.2, sleeps := s1.sleeps ++ [b.1] }
      Outcome.returned ({ Requeue := true }, trackedState.trackedStateRunning, none) s2

/-- The condition `handleJob` sets when the create step fails with `err`. -/
def setupFailed (now : Time) (err : GoError) : WorkflowCondition :=
  { Type_ := WorkflowConditionType.NetbootJobSetupFailed
    Status := metav1.ConditionStatus.ConditionTrue
    Reason := "Error"
    Message := fmt.Sprintf_v "error creating job: " err
    Time := some now }

/-- The condition `handleJob` sets when the create step returns no error. -/
def setupComplete (now : Time) : WorkflowCondition :=
  { Type_ := WorkflowConditionType.NetbootJobSetupComplete
    Status := metav1.ConditionStatus.ConditionTrue
    Reason := "Created"
    Message := "job created"
    Time := some now }

/-- The condition `handleJob` sets when tracking fails with `err`. -/
def jobFailed (now : Time) (err : GoError) : WorkflowCondition :=
  { Type_ := WorkflowConditionType.NetbootJobFailed
    Status := metav1.ConditionStatus.ConditionTrue
    Reason := "Error"
    Message := err.Error
    Time := some now }

/-- The condition `handleJob` sets when tracking finds the job complete. -/
def jobComplete (now : Time) : WorkflowCondition :=
  { Type_ := WorkflowConditionType.NetbootJobComplete
    Status := metav1.ConditionStatus.ConditionTrue
    Reason := "Complete"
    Message := "job completed"
    Time := some now }

/-- Function `handleJob`. -/
def handleJob (env : Env σ β) (s : state σ β) (actions : List rufio.Action) (name : jobName) :
    Outcome (reconcile.Result × Option GoError) (state σ β) :=
  if !(s.workflow.Status.BootOptions.Jobs.get name.String).ExistingJobDeleted then
    match deleteExisting env s name with
    | Outcome.panicked msg st => Outcome.panicked msg st
    | Outcome.returned (result, some err) st => Outcome.returned (result, some err) st
    | Outcome.returned (result, none) st => Outcome.returned (result, none) st
  else if (s.workflow.Status.BootOptions.Jobs.get name.String).UID = "" then
    match createJob env s actions name with
    | Outcome.panicked msg st => Outcome.panicked msg st
    | Outcome.returned (result, some err) st =>
      Outcome.returned (result, some err) (st.setCondition (setupFailed (env.Now st.client) err))
    | Outcome.returned (result, none) st =>
      Outcome.returned (result, none) (st.setCondition (setupComplete (env.Now st.client)))
  else if !(s.workflow.Status.BootOptions.Jobs.get name.String).Complete then
    match trackRunningJob env s name with
    | Outcome.panicked msg st => Outcome.panicked msg st
    | Outcome.returned (r, _, some err) st =>
      Outcome.returned (r, some err) (st.setCondition (jobFailed (env.Now st.client) err))
    | Outcome.returned (r, tState, none) st =>
      if tState = trackedState.trackedStateComplete then
        Outcome.returned (r, none) (st.setCondition (jobComplete (env.Now st.client)))
      else
        Outcome.returned (r, none) st
  else
    Outcome.returned ({ Requeue := true }, none) s

/-- The state after the get request of `createJob` and `trackRunningJob`. -/
def afterGet (env : Env σ β) (s : state σ β) (name : jobName) : state σ β :=
  { s with client := (env.Get s.client { Name := name.String, Namespace := s.workflow.Namespace }).2
           requests := s.requests
             ++ [Request.get { Name := name.String, Namespace := s.workflow.Namespace }] }

/-- The state after the get request and the hardware lookup of `createJob`. -/
def afterHardware (env : Env σ β) (s : state σ β) (name : jobName) : state σ β :=
  { afterGet env s name with
    client := (env.hardwareFrom (afterGet env s name).client s.workflow).2
    requests := (afterGet env s name).requests
      ++ [Request.hardwareFrom s.workflow.HardwareRef s.workflow.Namespace] }

/-- The job object `create` sends to the store. -/
def newJob (name : String) (bmc : BMCRef) (ns : String) (tasks : List rufio.Action) : rufio.Job :=
  { Name := name
    Namespace := ns
    Annotations := [("tink-controller-auto-created", "true")]
    Labels := [("tink-controller-auto-created", "true")]
    Spec := { MachineRef := { Name := bmc.Name, Namespace := ns }, Tasks := tasks } }

/-- The state after the get request, the hardware lookup and the create
request of `createJob`. -/
def afterCreate (env : Env σ β) (s : state σ β) (name : jobName) (bmc : BMCRef)
    (tasks : List rufio.Action) : state σ β :=
  { afterHardware env s name with
    client := (env.Create (afterHardware env s name).client
      (newJob name.String bmc s.workflow.Namespace tasks)).2
    requests := (afterHardware env s name).requests
      ++ [Request.create (newJob name.String bmc s.workflow.Namespace tasks)] }

/-- Statuses reachable from the zero-value job statuses: any number of
`handleJob` calls, for any job names and action lists, against any behaviour of
the collaborators, with the store and the backoff free to change between the
calls (the external system progresses). -/
inductive Reachable : state σ β → Prop where
  | init (s : state σ β) (zero : ∀ name : jobName, s.job name = {}) : Reachable s
  | call (env : Env σ β) (s : state σ β) (actions : List rufio.Action) (name : jobName)
      (prev : Reachable s) : Reachable (handleJob env s actions name).st
  | external (s : state σ β) (c : σ) (b : β) (prev : Reachable s) :
      Reachable { s with client := c, backoff := b }

/-- Number of side-effecting store requests (deletes and creates) in a trace. -/
def sideEffects (rs : List Request) : Nat :=
  (rs.filter (fun r => match r with
    | Request.delete _ _ => true
    | Request.create _ => true
    | _ => false)).length

/-- The object `deleteExisting` asks to delete: the job of that name in
that namespace. -/
def existingJob (name : jobName) (ns : String) : rufio.Job :=
  { Name := name.String, Namespace := ns }

/-- The options `deleteExisting` passes: grace period 0, foreground propagation. -/
def deleteOpts : List client.DeleteOption :=
  [client.DeleteOption.GracePeriodSeconds 0,
   client.DeleteOption.PropagationPolicy metav1.DeletionPropagation.DeletePropagationForeground]

/-- The delete request `deleteExisting` sends for a job name in a namespace. -/
def deleteRequest (name : jobName) (ns : String) : Request :=
  Request.delete (existingJob name ns) deleteOpts

/-- The key under which `createJob` and `trackRunningJob` fetch the job. -/
def jobKey (name : jobName) (ns : String) : client.ObjectKey :=
  { Name := name.String, Namespace := ns }

/-- The delete request for the job, sent to the store in state `c`, succeeds
or reports "not found". -/
def deleteClean (env : Env σ β) (c : σ) (name : jobName) (ns : String) : Prop :=
  (env.Delete c (existingJob name ns) deleteOpts).1 = none
  ∨ ∃ e, (env.Delete c (existingJob name ns) deleteOpts).1 = some e ∧ e.IsNotFound = true

/-- Whether a request is a create. -/
def Request.isCreate : Request → Bool
  | Request.create _ => true
  | _ => false

/-- Whether a request is a delete. -/
def Request.isDelete : Request → Bool
  | Request.delete _ _ => true
  | _ => false

/-- The state after the get request and one backoff wait of `trackRunningJob`. -/
def afterWait (env : Env σ β) (s : state σ β) (name : jobName) : state σ β :=
  { afterGet env s name with
    backoff := (env.NextBackOff s.backoff).2
    sleeps := s.sleeps ++ [(env.NextBackOff s.backoff).1] }

/-- The job map after `m[name] = v` on an initialised map `f`. -/
def assigned (f : String → Option JobStatus) (name : jobName) (v : JobStatus) : JobsMap :=
  some (fun k2 => if k2 = name then some v else f k2)

/-- A name made of printable ASCII characters other than the double quote and
the backslash (every valid Kubernetes object name is one): `%q` prints it
between double quotes as it is. -/
def plainName (name : String) : Prop :=
  ∀ c ∈ name.data, 32 ≤ c.toNat ∧ c.toNat < 127 ∧ c.toNat ≠ 34 ∧ c.toNat ≠ 92

/-- The state after the delete request of `deleteExisting`. -/
def afterDelete (env : Env σ β) (s : state σ β) (name : jobName) : state σ β :=
  { s with client := (env.Delete s.client (existingJob name s.workflow.Namespace) deleteOpts).2
           requests := s.requests ++ [deleteRequest name s.workflow.Namespace] }

/-- A request aims at the job of the name in the namespace: its key or its
object carries that name and that namespace. The hardware lookup is not a
request for the job. -/
def Request.targets (name : jobName) (ns : String) : Request → Prop
  | Request.get key => key.Name = name.String ∧ key.Namespace = ns
  | Request.delete obj _ => obj.Name = name.String ∧ obj.Namespace = ns
  | Request.create obj => obj.Name = name.String ∧ obj.Namespace = ns
  | Request.hardwareFrom _ _ => True

/-- The call is in the Track phase and the job it fetches carries neither a
Failed nor a Completed condition with status true. -/
def stillRunning (env : Env σ β) (s : state σ β) (name : jobName) : Prop :=
  (s.job name).ExistingJobDeleted = true ∧ (s.job name).UID ≠ "" ∧ (s.job name).Complete = false
  ∧ ∃ rj, (env.Get s.client (jobKey name s.workflow.Namespace)).1 = Except.ok rj
      ∧ rj.HasCondition rufio.JobConditionType.JobFailed rufio.ConditionStatus.ConditionTrue = false
      ∧ rj.HasCondition rufio.JobConditionType.JobCompleted rufio.ConditionStatus.ConditionTrue
          = false

/-- Message of the panic a call ends in, if it panics. -/
def Outcome.panic? {α S : Type} : Outcome α S → Option String
  | Outcome.returned _ _ => none
  | Outcome.panicked msg _ => some msg

end

/-! ## A concrete store for the scenarios -/

/-- An in-memory job store with one hardware record and a clock. -/
structure FakeStore where
  jobs : List rufio.Job := []
  hardware : Option Hardware := none
  unavailable : Bool := false
  clock : Time := 0

/-- The "not found" error of the fake store. -/
def fakeNotFound : GoError := GoError.errorString "not found" true

/-- The error of the fake store when it is unavailable. -/
def fakeUnavailable : GoError := GoError.errorString "connection refused" false

/-- Whether a stored job has the key. -/
def fakeMatches (name ns : String) (j : rufio.Job) : Bool :=
  j.Name == name && j.Namespace == ns

/-- The fake store as collaborators: `Get` finds a job by name and namespace,
`Delete` removes it, `Create` stores the object under the UID "uid-1", every
request fails while the store is unavailable, the backoff doubles. -/
def fakeEnv : Env FakeStore Int where
  Get st key :=
    if st.unavailable then (Except.error fakeUnavailable, st)
    else match st.jobs.find? (fakeMatches key.Name key.Namespace) with
      | some j => (Except.ok j, st)
      | none => (Except.error fakeNotFound, st)
  Delete st obj _ :=
    if st.unavailable then (some fakeUnavailable, st)
    else if st.jobs.any (fakeMatches obj.Name obj.Namespace) then
      (none, { st with jobs := st.jobs.filter (fun j => !fakeMatches obj.Name obj.Namespace j) })
    else (some fakeNotFound, st)
  Create st obj :=
    if st.unavailable then (some fakeUnavailable, st)
    else (none, { st with jobs := st.jobs ++ [{ obj with UID := "uid-1" }] })
  hardwareFrom st _ :=
    match st.hardware with
    | some hw => (Except.ok hw, st)
    | none => (Except.error fakeNotFound, st)
  NextBackOff b := (b, 2 * b)
  Now st := st.clock
  IsPrint _ := true

/-- A reconciler state over the fake store: workflow "wf" in namespace
"default" with the given job map. -/
def fakeState (store : FakeStore) (jobs : JobsMap) : state FakeStore Int :=
  { client := store
    workflow := { Name := "wf", Namespace := "default", HardwareRef := "machine1",
                  Status := { BootOptions := { Jobs := jobs } } }
    backoff := 1 }

/-- A job map with one entry. -/
def oneJob (name : String) (j : JobStatus) : JobsMap :=
  some (fun k => if k = name then some j else none)

/-- The empty, initialised job map. -/
def noJobs : JobsMap := some (fun _ => none)

/-- A hardware record with a BMC reference. -/
def fakeHardware : Hardware := { Name := "machine1", BMCRef := some { Name := "bmc1" } }

/-- The external system progressing between two calls: every stored job gets
the given conditions. -/
def externalConditions (cs : List rufio.JobCondition) (s : state FakeStore Int) : state FakeStore Int :=
  { s with client := { s.client with jobs := s.client.jobs.map (fun j => { j with Conditions := cs }) } }

/-- A job "netboot" in namespace "default" as the store holds it. -/
def storedJob (uid : String) (deletion : Option Time) (cs : List rufio.JobCondition) : rufio.Job :=
  { Name := "netboot", Namespace := "default", UID := uid, DeletionTimestamp := deletion,
    Conditions := cs }

/-- The condition Completed with status true. -/
def completedTrue : rufio.JobCondition :=
  { Type_ := rufio.JobConditionType.JobCompleted, Status := rufio.ConditionStatus.ConditionTrue }

/-- The condition Failed with status true. -/
def failedTrue : rufio.JobCondition :=
  { Type_ := rufio.JobConditionType.JobFailed, Status := rufio.ConditionStatus.ConditionTrue }

/-- Scenario state, Cleanup phase: a stale entry and a stale job in the store. -/
def cleanupState : state FakeStore Int :=
  fakeState { jobs := [storedJob "old" none []] }
    (oneJob "netboot" { UID := "old", ExistingJobDeleted := false, Complete := true })

/-- Scenario state, Create phase with the given store. -/
def createState (store : FakeStore) : state FakeStore Int :=
  fakeState store (oneJob "netboot" { UID := "", ExistingJobDeleted := true, Complete := false })

/-- Scenario state, Track phase with the given jobs in the store. -/
def trackState (jobs : List rufio.Job) : state FakeStore Int :=
  fakeState { jobs := jobs }
    (oneJob "netboot" { UID := "uid-1", ExistingJobDeleted := true, Complete := false })

/-- Scenario state, Done phase. -/
def doneState : state FakeStore Int :=
  fakeState { jobs := [storedJob "uid-1" none [completedTrue]] }
    (oneJob "netboot" { UID := "uid-1", ExistingJobDeleted := true, Complete := true })

/-- Lifecycle scenario: the zero-value status, an empty store, a hardware
record with a BMC reference. -/
def lifecycle0 : state FakeStore Int :=
  fakeState { hardware := some fakeHardware } noJobs

/-- Lifecycle scenario, after the first call. -/
def lifecycle1 : state FakeStore Int := (handleJob fakeEnv lifecycle0 [] "netboot").st

/-- Lifecycle scenario, after the second call. -/
def lifecycle2 : state FakeStore Int := (handleJob fakeEnv lifecycle1 [] "netboot").st

/-- Lifecycle scenario, after the job got its Completed condition and the
third call was made. -/
def lifecycle3 : state FakeStore Int :=
  (handleJob fakeEnv (externalConditions [completedTrue] lifecycle2) [] "netboot").st

/-- Lifecycle scenario, after the fourth call. -/
def lifecycle4 : state FakeStore Int := (handleJob fakeEnv lifecycle3 [] "netboot").st

/-- The fake store with a job lookup that is down: every `Get` fails with an
error that is not "not found", the other requests work. -/
def getDownEnv : Env FakeStore Int :=
  { fakeEnv with Get := fun st _ => (Except.error fakeUnavailable, st) }

/-- Scenario state, Cleanup phase on the zero-value workflow status: the job
map is nil. -/
def zeroStatusState : state FakeStore Int := fakeState {} none

/-- Scenario state, Cleanup phase with a store that is unavailable. -/
def cleanupDownState : state FakeStore Int :=
  fakeState { jobs := [storedJob "old" none []], unavailable := true }
    (oneJob "netboot" { UID := "old", ExistingJobDeleted := false, Complete := true })

/-- Scenario state with two jobs in the Track phase, "netboot" and
"iso-mount"; the store holds a failed "netboot" job and no "iso-mount" job. -/
def twoJobsState : state FakeStore Int :=
  fakeState { jobs := [storedJob "uid-1" none [failedTrue]] }
    (some (fun k =>
      if k = "netboot" then some { UID := "uid-1", ExistingJobDeleted := true, Complete := false }
      else if k = "iso-mount" then
        some { UID := "uid-2", ExistingJobDeleted := true, Complete := false }
      else none))

end workflow

/-! ## The container pull manager (cmd/tink-worker/worker) -/

namespace worker

/-- Modelled from the spec: one line of the pull stream. `PullImage` and the
types of its stream are not among the sources (only `registry_test.go` is). A
line is a structured record that may carry a status and an embedded error
message, or it cannot be parsed. -/
inductive PullLine where
  | record (status : Option String) (error : Option String)
  | malformed
deriving DecidableEq, Repr

/-- Modelled from the spec: type `RegistryConnDetails`, the optional credential
bundle; all fields empty means an anonymous pull. -/
structure RegistryConnDetails where
  Registry : String := ""
  Username : String := ""
  Password : String := ""
deriving DecidableEq, Repr

/-- Modelled from the spec: the registry pull interface. `ImagePull` fails or
gives the progress stream as the sequence of its lines; `ImageInspectWithRaw`
asks the local image store for the image and fails when it is absent. The
method names are the ones the test fakes. -/
structure DockerClient where
  ImagePull : String → RegistryConnDetails → Except GoError (List PullLine)
  ImageInspectWithRaw : String → Option GoError

/-- Modelled from the spec: the first embedded error message of a stream read
line by line; lines without one, and lines that cannot be parsed, are passed
over. -/
def firstError : List PullLine → Option String
  | [] => none
  | PullLine.record _ (some msg) :: _ => some msg
  | PullLine.record _ none :: rest => firstError rest
  | PullLine.malformed :: rest => firstError rest

/-- Modelled from the spec: a provisional failure. When the image is present in
the local store the failure is dropped; otherwise it is returned wrapped with
the fixed text "DOCKER PULL: " in front (the text the test expects). -/
def provisional (cli : DockerClient) (image : String) (failure : GoError) : Option GoError :=
  match cli.ImageInspectWithRaw image with
  | none => none
  | some _ => some (fmt.Errorf_w "DOCKER PULL: " failure)

/-- Modelled from the spec: method `PullImage` of the container manager, which
is not among the sources. A failed pull call is a provisional failure; a
stream with an embedded error message is a provisional failure with that
message; a stream without one is a success. -/
def PullImage (cli : DockerClient) (registry : RegistryConnDetails) (image : String) :
    Option GoError :=
  match cli.ImagePull image registry with
  | Except.error err => provisional cli image err
  | Except.ok lines =>
    match firstError lines with
    | some msg => provisional cli image (GoError.errorString msg false)
    | none => none

/-- Type `fakeDockerClient` of `registry_test.go`, the fields its two faked
methods read; the content of the fake stream is held as its lines. -/
structure fakeDockerClient where
  err : Option GoError := none
  imagePullContent : List PullLine := []
  imageInspectErr : Option GoError := none

/-- Method `ImagePull` of the fake client. -/
def fakeDockerClient.ImagePull (c : fakeDockerClient) : Except GoError (List PullLine) :=
  match c.err with
  | some e => Except.error e
  | none => Except.ok c.imagePullContent

/-- Method `ImageInspectWithRaw` of the fake client. -/
def fakeDockerClient.ImageInspectWithRaw (c : fakeDockerClient) : Option GoError :=
  c.imageInspectErr

/-- The fake client as a docker client. -/
def fakeDockerClient.asClient (c : fakeDockerClient) : DockerClient :=
  { ImagePull := fun _ _ => c.ImagePull
    ImageInspectWithRaw := fun _ => c.ImageInspectWithRaw }

/-- One row of the table of `TestContainerManagerPullImage`. -/
structure testCase where
  name : String
  image : String
  responseContent : List PullLine := []
  registry : RegistryConnDetails := {}
  clientErr : Option GoError := none
  wantErr : Option GoError := none
  imageInspectErr : Option GoError := none

/-- Result of `errors.New`. -/
def errorsNew (text : String) : GoError := GoError.errorString text false

/-- The table of `TestContainerManagerPullImage`. The stream of the happy path
is two empty records, the stream of the second row is one line that cannot be
parsed, the stream of the third row is one record with an error field. -/
def cases : List testCase :=
  [ { name := "Happy Path"
      image := "yav.in/4/deathstar:nomedalforchewie"
      responseContent := [PullLine.record none none, PullLine.record none none] },
    { name := "malformed JSON"
      image := "yav.in/4/deathstar:nomedalforchewie"
      responseContent := [PullLine.malformed]
      clientErr := some (errorsNew "You missed the shot")
      wantErr := some (errorsNew "DOCKER PULL: You missed the shot")
      imageInspectErr := some (errorsNew "Image not in local cache") },
    { name := "pull error"
      image := "yav.in/4/deathstar:nomedalforchewie"
      responseContent := [PullLine.record none (some "You missed the shot")]
      wantErr := some (errorsNew "DOCKER PULL: You missed the shot")
      imageInspectErr := some (errorsNew "Image not in local cache") },
    { name := "image already exists, no error"
      image := "yav.in/4/deathstar:nomedalforchewie"
      clientErr := some (errorsNew "You missed the shot")
      wantErr := none } ]

/-- The body of the test loop: whether the row passes, that is, no `t.Errorf`
is reached. -/
def testPasses (tc : testCase) : Bool :=
  let cli : fakeDockerClient :=
    { err := tc.clientErr, imagePullContent := tc.responseContent,
      imageInspectErr := tc.imageInspectErr }
  match PullImage cli.asClient tc.registry tc.image with
  | some gotErr =>
    match tc.wantErr with
    | none => false
    | some wantErr => if gotErr.Error ≠ wantErr.Error then false else true
  | none =>
    match tc.wantErr with
    | some _ => false
    | none => true

end worker

/-! ## Lemmas on the data model -/

namespace workflow

open v1alpha1

theorem JobsMap_get_set (m m2 : JobsMap) (k k2 : String) (v : JobStatus)
    (h : m.set k v = some m2) : m2.get k2 = if k2 = k then v else m.get k2 := by
  cases m with
  | none => simp [JobsMap.set] at h
  | some f =>
    simp only [JobsMap.set, Option.some.injEq] at h
    subst h
    by_cases hk : k2 = k <;> simp [JobsMap.get, hk]

theorem JobsMap_set_some (f : String → Option JobStatus) (k : String) (v : JobStatus) :
    ∃ m2, JobsMap.set (some f) k v = some m2 := ⟨_, rfl⟩

theorem JobsMap_some_of_deleted (m : JobsMap) (k : String)
    (h : (m.get k).ExistingJobDeleted = true) : ∃ f, m = some f := by
  cases m with
  | none => simp [JobsMap.get] at h
  | some f => exact ⟨f, rfl⟩

theorem mem_setConditionList (cs : List WorkflowCondition) (wc : WorkflowCondition) :
    wc ∈ setConditionList cs wc := by
  induction cs with
  | nil => simp [setConditionList]
  | cons c cs ih =>
    unfold setConditionList
    split
    · simp
    · simp [ih]

section
variable {σ β : Type}

@[simp] theorem job_withJobs (s : state σ β) (m : JobsMap) (n : jobName) :
    (s.withJobs m).job n = m.get n := rfl

@[simp] theorem job_setCondition (s : state σ β) (wc : WorkflowCondition) (n : jobName) :
    (s.setCondition wc).job n = s.job n := rfl

@[simp] theorem requests_setCondition (s : state σ β) (wc : WorkflowCondition) :
    (s.setCondition wc).requests = s.requests := rfl

@[simp] theorem sleeps_setCondition (s : state σ β) (wc : WorkflowCondition) :
    (s.setCondition wc).sleeps = s.sleeps := rfl

@[simp] theorem requests_withJobs (s : state σ β) (m : JobsMap) :
    (s.withJobs m).requests = s.requests := rfl

@[simp] theorem sleeps_withJobs (s : state σ β) (m : JobsMap) :
    (s.withJobs m).sleeps = s.sleeps := rfl

theorem conditions_setCondition (s : state σ β) (wc : WorkflowCondition) :
    wc ∈ (s.setCondition wc).workflow.Status.Conditions :=
  mem_setConditionList _ _

/-! ## Theorems on `handleJob` -/

theorem handleJob_done_eq (env : Env σ β) (s : state σ β) (actions : List rufio.Action)
    (name : jobName)
    (hdel : (s.job name).ExistingJobDeleted = true)
    (huid : (s.job name).UID ≠ "")
    (hdone : (s.job name).Complete = true) :
    handleJob env s actions name = Outcome.returned ({ Requeue := true }, none) s := by
  unfold state.job at hdel huid hdone
  unfold handleJob
  simp [hdel, huid, hdone]

theorem ignoreNotFound_of_deleteClean (env : Env σ β) (c : σ) (name : jobName) (ns : String)
    (h : deleteClean env c name ns) :
    client.IgnoreNotFound (env.Delete c (existingJob name ns) deleteOpts).1 = none := by
  rcases h with h | ⟨e, h, he⟩
  · rw [h]; rfl
  · rw [h]; simp [client.IgnoreNotFound, he]

theorem deleteExisting_requests (env : Env σ β) (s : state σ β) (name : jobName) :
    (deleteExisting env s name).st.requests
      = s.requests ++ [deleteRequest name s.workflow.Namespace] := by
  unfold deleteExisting
  simp only []
  split
  · rfl
  · split <;> rfl

theorem deleteExisting_clean (env : Env σ β) (s : state σ β) (name : jobName)
    (f : String → Option JobStatus)
    (hmap : s.workflow.Status.BootOptions.Jobs = some f)
    (h : deleteClean env s.client name s.workflow.Namespace) :
    (deleteExisting env s name).val? = some ({ Requeue := true }, none)
    ∧ (deleteExisting env s name).st.job name
        = { UID := "", ExistingJobDeleted := true, Complete := false }
    ∧ (∃ g, (deleteExisting env s name).st.workflow.Status.BootOptions.Jobs = some g)
    ∧ (deleteExisting env s name).st.workflow.Namespace = s.workflow.Namespace
    ∧ (deleteExisting env s name).st.client
        = (env.Delete s.client (existingJob name s.workflow.Namespace) deleteOpts).2 := by
  have hi := ignoreNotFound_of_deleteClean env s.client name s.workflow.Namespace h
  unfold existingJob deleteOpts at hi
  unfold deleteExisting
  simp only [hi, hmap, JobsMap.set]
  refine ⟨rfl, ?_, ⟨_, rfl⟩, rfl, rfl⟩
  simp [Outcome.st, JobsMap.get, jobName.String]

theorem handleJob_cleanup_eq (env : Env σ β) (s : state σ β) (actions : List rufio.Action)
    (name : jobName) (hdel : (s.job name).ExistingJobDeleted = false) :
    (handleJob env s actions name).st = (deleteExisting env s name).st
    ∧ (handleJob env s actions name).val? = (deleteExisting env s name).val? := by
  unfold state.job at hdel
  unfold handleJob
  simp only [hdel, Bool.not_false, if_true]
  split
  · next h => rw [h]; exact ⟨rfl, rfl⟩
  · next h => rw [h]; exact ⟨rfl, rfl⟩
  · next h => rw [h]; exact ⟨rfl, rfl⟩

/-- C10: in the Done phase (ExistingJobDeleted true, UID non-empty, Complete
true) `handleJob` returns requeue=true with no error in the very state it was
called in: no store request, no backoff interval consumed, the conditions and
the job map as they were. -/
theorem done_is_inert (env : Env σ β) (s : state σ β) (actions : List rufio.Action)
    (name : jobName)
    (hdel : (s.job name).ExistingJobDeleted = true)
    (huid : (s.job name).UID ≠ "")
    (hdone : (s.job name).Complete = true) :
    handleJob env s actions name = Outcome.returned ({ Requeue := true }, none) s
    ∧ (handleJob env s actions name).val? = some ({ Requeue := true }, none)
    ∧ (handleJob env s actions name).st.requests = s.requests
    ∧ (handleJob env s actions name).st.sleeps = s.sleeps
    ∧ (handleJob env s actions name).st.backoff = s.backoff
    ∧ (handleJob env s actions name).st.workflow.Status.Conditions = s.workflow.Status.Conditions
    ∧ (handleJob env s actions name).st.workflow.Status.BootOptions.Jobs
        = s.workflow.Status.BootOptions.Jobs := by
  rw [handleJob_done_eq env s actions name hdel huid hdone]
  exact ⟨rfl, rfl, rfl, rfl, rfl, rfl, rfl⟩

/-- C2: when the entry of the job name has ExistingJobDeleted false (whatever
its UID and Complete), one `handleJob` call sends exactly one request, the
delete of the job of that name in the namespace of the workflow with grace
period 0 and foreground propagation; when the job map is initialised and the
delete succeeds or reports "not found", the call returns requeue=true with no
error and the entry is (UID "", ExistingJobDeleted true, Complete false).
Running `deleteExisting` twice in a row, the delete succeeding or reporting
"not found" both times, gives that entry and that result both times. -/
theorem cleanup_deletes_once_and_resets (env : Env σ β) (s : state σ β)
    (actions : List rufio.Action) (name : jobName)
    (hdel : (s.job name).ExistingJobDeleted = false) :
    (handleJob env s actions name).st.requests
        = s.requests ++ [Request.delete { Name := name, Namespace := s.workflow.Namespace }
            [client.DeleteOption.GracePeriodSeconds 0,
             client.DeleteOption.PropagationPolicy
               metav1.DeletionPropagation.DeletePropagationForeground]]
    ∧ (s.workflow.Status.BootOptions.Jobs ≠ none →
        deleteClean env s.client name s.workflow.Namespace →
        (handleJob env s actions name).val? = some ({ Requeue := true }, none)
        ∧ (handleJob env s actions name).st.job name
            = { UID := "", ExistingJobDeleted := true, Complete := false })
    ∧ (s.workflow.Status.BootOptions.Jobs ≠ none →
        deleteClean env s.client name s.workflow.Namespace →
        deleteClean env (deleteExisting env s name).st.client name s.workflow.Namespace →
        (deleteExisting env s name).val? = some ({ Requeue := true }, none)
        ∧ (deleteExisting env s name).st.job name
            = { UID := "", ExistingJobDeleted := true, Complete := false }
        ∧ (deleteExisting env (deleteExisting env s name).st name).val?
            = some ({ Requeue := true }, none)
        ∧ (deleteExisting env (deleteExisting env s name).st name).st.job name
            = { UID := "", ExistingJobDeleted := true, Complete := false }) := by
  obtain ⟨hst, hval⟩ := handleJob_cleanup_eq env s actions name hdel
  refine ⟨?_, ?_, ?_⟩
  · rw [hst]; exact deleteExisting_requests env s name
  · intro hinit hc
    obtain ⟨f, hmap⟩ := Option.ne_none_iff_exists'.mp hinit
    obtain ⟨h1, h2, _⟩ := deleteExisting_clean env s name f hmap hc
    rw [hst, hval]; exact ⟨h1, h2⟩
  · intro hinit hc1 hc2
    obtain ⟨f, hmap⟩ := Option.ne_none_iff_exists'.mp hinit
    obtain ⟨h1, h2, ⟨g, hg⟩, hns, _⟩ := deleteExisting_clean env s name f hmap hc1
    rw [← hns] at hc2
    obtain ⟨h3, h4, _⟩ := deleteExisting_clean env _ name g hg hc2
    exact ⟨h1, h2, h3, h4⟩

/-! ### The create step, path by path -/

theorem createJob_deleting (env : Env σ β) (s : state σ β) (actions : List rufio.Action)
    (name : jobName) (rj : rufio.Job)
    (hget : (env.Get s.client { Name := name, Namespace := s.workflow.Namespace }).1 = Except.ok rj)
    (hgone : metav1.IsZero rj.DeletionTimestamp = false) :
    createJob env s actions name
      = Outcome.returned ({ Requeue := true }, none) (afterGet env s name) := by
  unfold createJob
  simp only [jobName.String] at *
  simp only [hget, hgone, Bool.not_false, if_true]
  rfl

theorem createJob_found (env : Env σ β) (s : state σ β) (actions : List rufio.Action)
    (name : jobName) (rj : rufio.Job) (f : String → Option JobStatus)
    (hmap : s.workflow.Status.BootOptions.Jobs = some f)
    (hget : (env.Get s.client { Name := name, Namespace := s.workflow.Namespace }).1 = Except.ok rj)
    (hlive : metav1.IsZero rj.DeletionTimestamp = true) :
    createJob env s actions name
      = Outcome.returned ({ Requeue := true }, none)
          ((afterGet env s name).withJobs (assigned f name { s.job name with UID := rj.UID })) := by
  unfold createJob
  simp only [jobName.String] at *
  simp only [hget, hlive, hmap, JobsMap.set, state.job, Bool.not_true, Bool.false_eq_true,
    if_false, jobName.String, assigned]
  rfl

theorem createJob_hardware_error (env : Env σ β) (s : state σ β) (actions : List rufio.Action)
    (name : jobName) (e e2 : GoError)
    (hget : (env.Get s.client { Name := name, Namespace := s.workflow.Namespace }).1
      = Except.error e)
    (hhw : (env.hardwareFrom (afterGet env s name).client s.workflow).1 = Except.error e2) :
    createJob env s actions name
      = Outcome.returned ({}, some (fmt.Errorf_w "error getting hardware: " e2))
          (afterHardware env s name) := by
  unfold createJob
  unfold afterGet at hhw
  simp only [jobName.String] at *
  simp only [hget, hhw]
  rfl

theorem createJob_no_bmc (env : Env σ β) (s : state σ β) (actions : List rufio.Action)
    (name : jobName) (e : GoError) (hw : Hardware)
    (hget : (env.Get s.client { Name := name, Namespace := s.workflow.Namespace }).1
      = Except.error e)
    (hhw : (env.hardwareFrom (afterGet env s name).client s.workflow).1 = Except.ok hw)
    (hbmc : hw.BMCRef = none) :
    createJob env s actions name
      = Outcome.returned
          ({}, some (fmt.Errorf
            ("hardware " ++ fmt.quote env.IsPrint hw.Name ++ " does not have a BMC")))
          (afterHardware env s name) := by
  unfold createJob
  unfold afterGet at hhw
  simp only [jobName.String] at *
  simp only [hget, hhw, hbmc]
  rfl

theorem createJob_create_error (env : Env σ β) (s : state σ β) (actions : List rufio.Action)
    (name : jobName) (e e3 : GoError) (hw : Hardware) (bmc : BMCRef)
    (hget : (env.Get s.client { Name := name, Namespace := s.workflow.Namespace }).1
      = Except.error e)
    (hhw : (env.hardwareFrom (afterGet env s name).client s.workflow).1 = Except.ok hw)
    (hbmc : hw.BMCRef = some bmc)
    (hcreate : (env.Create (afterHardware env s name).client
      (newJob name bmc s.workflow.Namespace actions)).1 = some e3) :
    createJob env s actions name
      = Outcome.returned
          ({}, some (fmt.Errorf_w "error creating job: "
            (fmt.Errorf_w "error creating job.bmc.tinkerbell.org object for netbooting machine: " e3)))
          (afterCreate env s name bmc actions) := by
  unfold createJob create
  unfold afterHardware afterGet newJob at hcreate
  unfold afterGet at hhw
  simp only [jobName.String] at *
  simp only [hget, hhw, hbmc, hcreate]
  rfl

theorem createJob_created (env : Env σ β) (s : state σ β) (actions : List rufio.Action)
    (name : jobName) (e : GoError) (hw : Hardware) (bmc : BMCRef)
    (hget : (env.Get s.client { Name := name, Namespace := s.workflow.Namespace }).1
      = Except.error e)
    (hhw : (env.hardwareFrom (afterGet env s name).client s.workflow).1 = Except.ok hw)
    (hbmc : hw.BMCRef = some bmc)
    (hcreate : (env.Create (afterHardware env s name).client
      (newJob name bmc s.workflow.Namespace actions)).1 = none) :
    createJob env s actions name
      = Outcome.returned ({ Requeue := true }, none) (afterCreate env s name bmc actions) := by
  unfold createJob create
  unfold afterHardware afterGet newJob at hcreate
  unfold afterGet at hhw
  simp only [jobName.String] at *
  simp only [hget, hhw, hbmc, hcreate]
  rfl

/-! ### The create phase of `handleJob` -/

theorem handleJob_create_ok (env : Env σ β) (s st : state σ β) (actions : List rufio.Action)
    (name : jobName) (result : reconcile.Result)
    (hdel : (s.job name).ExistingJobDeleted = true)
    (huid : (s.job name).UID = "")
    (h : createJob env s actions name = Outcome.returned (result, none) st) :
    handleJob env s actions name
      = Outcome.returned (result, none) (st.setCondition (setupComplete (env.Now st.client))) := by
  unfold state.job at hdel huid
  unfold handleJob
  simp only [hdel, huid, h, Bool.not_true, if_true]
  rfl

theorem handleJob_create_err (env : Env σ β) (s st : state σ β) (actions : List rufio.Action)
    (name : jobName) (result : reconcile.Result) (err : GoError)
    (hdel : (s.job name).ExistingJobDeleted = true)
    (huid : (s.job name).UID = "")
    (h : createJob env s actions name = Outcome.returned (result, some err) st) :
    handleJob env s actions name
      = Outcome.returned (result, some err)
          (st.setCondition (setupFailed (env.Now st.client) err)) := by
  unfold state.job at hdel huid
  unfold handleJob
  simp only [hdel, huid, h, Bool.not_true, if_true]
  rfl

/-- C3: in the Create phase, when the store returns a job of the target name
that is not marked for deletion, `handleJob` sets the UID of the entry to the
UID of that job, leaves ExistingJobDeleted and Complete as they were, sends the
get request and nothing else (no create), and returns requeue=true with no
error. -/
theorem create_adopts_existing_job (env : Env σ β) (s : state σ β) (actions : List rufio.Action)
    (name : jobName) (rj : rufio.Job)
    (hdel : (s.job name).ExistingJobDeleted = true)
    (huid : (s.job name).UID = "")
    (hget : (env.Get s.client { Name := name, Namespace := s.workflow.Namespace }).1 = Except.ok rj)
    (hlive : metav1.IsZero rj.DeletionTimestamp = true) :
    (handleJob env s actions name).val? = some ({ Requeue := true }, none)
    ∧ ((handleJob env s actions name).st.job name).UID = rj.UID
    ∧ ((handleJob env s actions name).st.job name).ExistingJobDeleted
        = (s.job name).ExistingJobDeleted
    ∧ ((handleJob env s actions name).st.job name).Complete = (s.job name).Complete
    ∧ (handleJob env s actions name).st.requests
        = s.requests ++ [Request.get { Name := name, Namespace := s.workflow.Namespace }] := by
  obtain ⟨f, hf⟩ := JobsMap_some_of_deleted _ _ hdel
  rw [handleJob_create_ok env s _ actions name _ hdel huid
    (createJob_found env s actions name rj f hf hget hlive)]
  refine ⟨rfl, ?_, ?_, ?_, rfl⟩ <;>
    simp [Outcome.st, JobsMap.get, assigned]

/-- C7: in the Create phase, when the store returns a job of the target name
that is marked for deletion (non-zero deletion timestamp), `handleJob` sends
the get request and nothing else (no create), leaves the job map as it was (the
UID stays empty, so the next call is in the Create phase again), and returns
requeue=true with no error. -/
theorem create_waits_for_deletion (env : Env σ β) (s : state σ β) (actions : List rufio.Action)
    (name : jobName) (rj : rufio.Job)
    (hdel : (s.job name).ExistingJobDeleted = true)
    (huid : (s.job name).UID = "")
    (hget : (env.Get s.client { Name := name, Namespace := s.workflow.Namespace }).1 = Except.ok rj)
    (hgone : metav1.IsZero rj.DeletionTimestamp = false) :
    (handleJob env s actions name).val? = some ({ Requeue := true }, none)
    ∧ (handleJob env s actions name).st.requests
        = s.requests ++ [Request.get { Name := name, Namespace := s.workflow.Namespace }]
    ∧ (handleJob env s actions name).st.workflow.Status.BootOptions.Jobs
        = s.workflow.Status.BootOptions.Jobs
    ∧ ((handleJob env s actions name).st.job name).UID = ""
    ∧ ((handleJob env s actions name).st.job name).ExistingJobDeleted = true := by
  rw [handleJob_create_ok env s _ actions name _ hdel huid
    (createJob_deleting env s actions name rj hget hgone)]
  exact ⟨rfl, rfl, rfl, huid, hdel⟩

/-! ### The track step, path by path -/

theorem trackRunningJob_get_error (env : Env σ β) (s : state σ β) (name : jobName) (e : GoError)
    (hget : (env.Get s.client { Name := name, Namespace := s.workflow.Namespace }).1
      = Except.error e) :
    trackRunningJob env s name
      = Outcome.returned
          ({}, trackedState.trackedStateError, some (fmt.Errorf_w "error getting job: " e))
          (afterGet env s name) := by
  unfold trackRunningJob
  simp only [jobName.String] at *
  simp only [hget]
  rfl

theorem trackRunningJob_failed (env : Env σ β) (s : state σ β) (name : jobName) (rj : rufio.Job)
    (hget : (env.Get s.client { Name := name, Namespace := s.workflow.Namespace }).1 = Except.ok rj)
    (hfail : rj.HasCondition rufio.JobConditionType.JobFailed
      rufio.ConditionStatus.ConditionTrue = true) :
    trackRunningJob env s name
      = Outcome.returned ({}, trackedState.trackedStateFailed, some (fmt.Errorf "job failed"))
          (afterGet env s name) := by
  unfold trackRunningJob
  simp only [jobName.String] at *
  simp only [hget, hfail, if_true]
  rfl

theorem trackRunningJob_completed (env : Env σ β) (s : state σ β) (name : jobName)
    (rj : rufio.Job) (f : String → Option JobStatus)
    (hmap : s.workflow.Status.BootOptions.Jobs = some f)
    (hget : (env.Get s.client { Name := name, Namespace := s.workflow.Namespace }).1 = Except.ok rj)
    (hfail : rj.HasCondition rufio.JobConditionType.JobFailed
      rufio.ConditionStatus.ConditionTrue = false)
    (hcomp : rj.HasCondition rufio.JobConditionType.JobCompleted
      rufio.ConditionStatus.ConditionTrue = true) :
    trackRunningJob env s name
      = Outcome.returned ({}, trackedState.trackedStateComplete, none)
          ((afterGet env s name).withJobs (assigned f name { s.job name with Complete := true })) := by
  unfold trackRunningJob
  simp only [jobName.String] at *
  simp only [hget, hfail, hcomp, hmap, JobsMap.set, state.job, Bool.false_eq_true, if_false,
    if_true, jobName.String, assigned]
  rfl

theorem trackRunningJob_running (env : Env σ β) (s : state σ β) (name : jobName) (rj : rufio.Job)
    (hget : (env.Get s.client { Name := name, Namespace := s.workflow.Namespace }).1 = Except.ok rj)
    (hfail : rj.HasCondition rufio.JobConditionType.JobFailed
      rufio.ConditionStatus.ConditionTrue = false)
    (hcomp : rj.HasCondition rufio.JobConditionType.JobCompleted
      rufio.ConditionStatus.ConditionTrue = false) :
    trackRunningJob env s name
      = Outcome.returned ({ Requeue := true }, trackedState.trackedStateRunning, none)
          (afterWait env s name) := by
  unfold trackRunningJob
  simp only [jobName.String] at *
  simp only [hget, hfail, hcomp, Bool.false_eq_true, if_false]
  rfl

/-! ### The track phase of `handleJob` -/

theorem handleJob_track_err (env : Env σ β) (s st : state σ β) (actions : List rufio.Action)
    (name : jobName) (r : reconcile.Result) (t : trackedState) (err : GoError)
    (hdel : (s.job name).ExistingJobDeleted = true)
    (huid : (s.job name).UID ≠ "")
    (hrun : (s.job name).Complete = false)
    (h : trackRunningJob env s name = Outcome.returned (r, t, some err) st) :
    handleJob env s actions name
      = Outcome.returned (r, some err) (st.setCondition (jobFailed (env.Now st.client) err)) := by
  unfold state.job at hdel huid hrun
  unfold handleJob
  simp only [hdel, huid, hrun, h, Bool.not_true, Bool.not_false, Bool.false_eq_true, if_false,
    if_true]

theorem handleJob_track_complete (env : Env σ β) (s st : state σ β) (actions : List rufio.Action)
    (name : jobName) (r : reconcile.Result)
    (hdel : (s.job name).ExistingJobDeleted = true)
    (huid : (s.job name).UID ≠ "")
    (hrun : (s.job name).Complete = false)
    (h : trackRunningJob env s name
      = Outcome.returned (r, trackedState.trackedStateComplete, none) st) :
    handleJob env s actions name
      = Outcome.returned (r, none) (st.setCondition (jobComplete (env.Now st.client))) := by
  unfold state.job at hdel huid hrun
  unfold handleJob
  simp only [hdel, huid, hrun, h, Bool.not_true, Bool.not_false, Bool.false_eq_true, if_false,
    if_true]

theorem handleJob_track_running (env : Env σ β) (s st : state σ β) (actions : List rufio.Action)
    (name : jobName) (r : reconcile.Result)
    (hdel : (s.job name).ExistingJobDeleted = true)
    (huid : (s.job name).UID ≠ "")
    (hrun : (s.job name).Complete = false)
    (h : trackRunningJob env s name
      = Outcome.returned (r, trackedState.trackedStateRunning, none) st) :
    handleJob env s actions name = Outcome.returned (r, none) st := by
  unfold state.job at hdel huid hrun
  unfold handleJob
  simp only [hdel, huid, hrun, h, Bool.not_true, Bool.not_false, Bool.false_eq_true, if_false,
    if_true]
  rfl

/-- C6: in the Track phase, when fetching the job fails with any error `e`
("not found" included), `handleJob` returns the error "error getting job: "
followed by the text of `e` (wrapping `e`) with requeue=false, consumes no
backoff interval, records a JobFailed condition carrying that text, and leaves
the job map as it was. -/
theorem track_fetch_error_is_reported (env : Env σ β) (s : state σ β) (actions : List rufio.Action)
    (name : jobName) (e : GoError)
    (hdel : (s.job name).ExistingJobDeleted = true)
    (huid : (s.job name).UID ≠ "")
    (hrun : (s.job name).Complete = false)
    (hget : (env.Get s.client { Name := name, Namespace := s.workflow.Namespace }).1
      = Except.error e) :
    (handleJob env s actions name).val?
        = some ({ Requeue := false, RequeueAfter := 0 },
            some (GoError.wrapError ("error getting job: " ++ e.Error) e))
    ∧ (handleJob env s actions name).st.sleeps = s.sleeps
    ∧ (handleJob env s actions name).st.backoff = s.backoff
    ∧ (∃ c ∈ (handleJob env s actions name).st.workflow.Status.Conditions,
        c.Type_ = WorkflowConditionType.NetbootJobFailed
        ∧ c.Status = metav1.ConditionStatus.ConditionTrue
        ∧ c.Message = "error getting job: " ++ e.Error)
    ∧ (handleJob env s actions name).st.workflow.Status.BootOptions.Jobs
        = s.workflow.Status.BootOptions.Jobs
    ∧ (handleJob env s actions name).st.job name = s.job name := by
  rw [handleJob_track_err env s _ actions name _ _ _ hdel huid hrun
    (trackRunningJob_get_error env s name e hget)]
  refine ⟨rfl, rfl, rfl, ⟨_, conditions_setCondition _ _, rfl, rfl, rfl⟩, rfl, rfl⟩

/-- C4, as amended: in the Track phase, when the fetched job carries a Failed
condition with status true, `handleJob` returns the error "job failed", records
a JobFailed condition, and leaves the job map as it was (Complete stays false);
when it carries a Completed condition with status true and no Failed condition
with status true, `handleJob` returns no error, sets Complete of the entry to
true (UID and ExistingJobDeleted as they were), and records a JobComplete
condition. -/
theorem track_terminal_conditions (env : Env σ β) (s : state σ β) (actions : List rufio.Action)
    (name : jobName) (rj : rufio.Job)
    (hdel : (s.job name).ExistingJobDeleted = true)
    (huid : (s.job name).UID ≠ "")
    (hrun : (s.job name).Complete = false)
    (hget : (env.Get s.client { Name := name, Namespace := s.workflow.Namespace }).1
      = Except.ok rj) :
    (rj.HasCondition rufio.JobConditionType.JobFailed rufio.ConditionStatus.ConditionTrue = true →
      (handleJob env s actions name).val?
          = some ({}, some (GoError.errorString "job failed" false))
      ∧ (∃ c ∈ (handleJob env s actions name).st.workflow.Status.Conditions,
          c.Type_ = WorkflowConditionType.NetbootJobFailed
          ∧ c.Status = metav1.ConditionStatus.ConditionTrue
          ∧ c.Message = "job failed")
      ∧ (handleJob env s actions name).st.workflow.Status.BootOptions.Jobs
          = s.workflow.Status.BootOptions.Jobs
      ∧ ((handleJob env s actions name).st.job name).Complete = false)
    ∧ (rj.HasCondition rufio.JobConditionType.JobFailed rufio.ConditionStatus.ConditionTrue = false →
      rj.HasCondition rufio.JobConditionType.JobCompleted rufio.ConditionStatus.ConditionTrue = true →
      (handleJob env s actions name).val? = some ({}, none)
      ∧ (handleJob env s actions name).st.job name = { s.job name with Complete := true }
      ∧ (∃ c ∈ (handleJob env s actions name).st.workflow.Status.Conditions,
          c.Type_ = WorkflowConditionType.NetbootJobComplete
          ∧ c.Status = metav1.ConditionStatus.ConditionTrue
          ∧ c.Message = "job completed")) := by
  constructor
  · intro hfail
    rw [handleJob_track_err env s _ actions name _ _ _ hdel huid hrun
      (trackRunningJob_failed env s name rj hget hfail)]
    exact ⟨rfl, ⟨_, conditions_setCondition _ _, rfl, rfl, rfl⟩, rfl, hrun⟩
  · intro hfail hcomp
    obtain ⟨f, hf⟩ := JobsMap_some_of_deleted _ _ hdel
    rw [handleJob_track_complete env s _ actions name _ hdel huid hrun
      (trackRunningJob_completed env s name rj f hf hget hfail hcomp)]
    refine ⟨rfl, ?_, ⟨_, conditions_setCondition _ _, rfl, rfl, rfl⟩⟩
    simp [Outcome.st, JobsMap.get, assigned]

/-! ### Quoting of the hardware name -/

theorem quoteRune_plain (isPrint : Char → Bool) (c : Char)
    (h : 32 ≤ c.toNat ∧ c.toNat < 127 ∧ c.toNat ≠ 34 ∧ c.toNat ≠ 92) :
    fmt.quoteRune isPrint c = [c] := by
  obtain ⟨h1, h2, h3, h4⟩ := h
  unfold fmt.quoteRune
  simp only []
  rw [if_neg (by omega), if_pos (Or.inl ⟨h1, h2⟩)]

theorem flatMap_quoteRune_plain (isPrint : Char → Bool) (cs : List Char)
    (h : ∀ c ∈ cs, 32 ≤ c.toNat ∧ c.toNat < 127 ∧ c.toNat ≠ 34 ∧ c.toNat ≠ 92) :
    cs.flatMap (fmt.quoteRune isPrint) = cs := by
  induction cs with
  | nil => rfl
  | cons c cs ih =>
    rw [List.flatMap_cons, quoteRune_plain isPrint c (h c (List.mem_cons_self _ _)),
      ih (fun d hd => h d (List.mem_cons_of_mem _ hd))]
    rfl

theorem quote_plain (isPrint : Char → Bool) (name : String) (h : plainName name) :
    fmt.quote isPrint name = "\"" ++ name ++ "\"" := by
  unfold fmt.quote
  rw [flatMap_quoteRune_plain isPrint name.data h]
  apply String.ext
  simp only [String.data_append]

/-- C8: in the Create phase, when fetching the job fails and the hardware
record of the workflow has no BMC reference, `handleJob` returns the error
"hardware <name> does not have a BMC", the name quoted by `%q`, with
requeue=false; it sends the get request and the hardware lookup and nothing
else (no create), records a SetupFailed condition whose message is
"error creating job: " followed by that error, and leaves the job map as it
was. For a plain name the quoted name is the name between double quotes. -/
theorem create_without_bmc_fails (env : Env σ β) (s : state σ β) (actions : List rufio.Action)
    (name : jobName) (e : GoError) (hw : Hardware)
    (hdel : (s.job name).ExistingJobDeleted = true)
    (huid : (s.job name).UID = "")
    (hget : (env.Get s.client { Name := name, Namespace := s.workflow.Namespace }).1
      = Except.error e)
    (hhw : (env.hardwareFrom (afterGet env s name).client s.workflow).1 = Except.ok hw)
    (hbmc : hw.BMCRef = none) :
    (handleJob env s actions name).val?
        = some ({ Requeue := false, RequeueAfter := 0 },
            some (GoError.errorString
              ("hardware " ++ fmt.quote env.IsPrint hw.Name ++ " does not have a BMC") false))
    ∧ (plainName hw.Name →
        fmt.quote env.IsPrint hw.Name = "\"" ++ hw.Name ++ "\"")
    ∧ (handleJob env s actions name).st.requests
        = s.requests ++ [Request.get { Name := name, Namespace := s.workflow.Namespace },
            Request.hardwareFrom s.workflow.HardwareRef s.workflow.Namespace]
    ∧ (∃ c ∈ (handleJob env s actions name).st.workflow.Status.Conditions,
        c.Type_ = WorkflowConditionType.NetbootJobSetupFailed
        ∧ c.Status = metav1.ConditionStatus.ConditionTrue
        ∧ c.Message = "error creating job: "
            ++ ("hardware " ++ fmt.quote env.IsPrint hw.Name ++ " does not have a BMC"))
    ∧ (handleJob env s actions name).st.workflow.Status.BootOptions.Jobs
        = s.workflow.Status.BootOptions.Jobs
    ∧ (handleJob env s actions name).st.job name = s.job name := by
  rw [handleJob_create_err env s _ actions name _ _ hdel huid
    (createJob_no_bmc env s actions name e hw hget hhw hbmc)]
  refine ⟨rfl, quote_plain _ _, ?_, ⟨_, conditions_setCondition _ _, rfl, rfl, rfl⟩, rfl, rfl⟩
  simp [Outcome.st, afterHardware, afterGet, jobName.String]

theorem handleJob_create_new (env : Env σ β) (s : state σ β) (actions : List rufio.Action)
    (name : jobName) (e : GoError) (hw : Hardware) (bmc : BMCRef)
    (hdel : (s.job name).ExistingJobDeleted = true)
    (huid : (s.job name).UID = "")
    (hget : (env.Get s.client { Name := name, Namespace := s.workflow.Namespace }).1
      = Except.error e)
    (hhw : (env.hardwareFrom (afterGet env s name).client s.workflow).1 = Except.ok hw)
    (hbmc : hw.BMCRef = some bmc)
    (hcreate : (env.Create (afterHardware env s name).client
      (newJob name bmc s.workflow.Namespace actions)).1 = none) :
    handleJob env s actions name
      = Outcome.returned ({ Requeue := true }, none)
          ((afterCreate env s name bmc actions).setCondition
            (setupComplete (env.Now (afterCreate env s name bmc actions).client))) :=
  handleJob_create_ok env s _ actions name _ hdel huid
    (createJob_created env s actions name e hw bmc hget hhw hbmc hcreate)

/-! ### The states each step can end in -/

theorem createJob_found_nil (env : Env σ β) (s : state σ β) (actions : List rufio.Action)
    (name : jobName) (rj : rufio.Job)
    (hmap : s.workflow.Status.BootOptions.Jobs = none)
    (hget : (env.Get s.client { Name := name, Namespace := s.workflow.Namespace }).1 = Except.ok rj)
    (hlive : metav1.IsZero rj.DeletionTimestamp = true) :
    createJob env s actions name
      = Outcome.panicked "assignment to entry in nil map" (afterGet env s name) := by
  unfold createJob
  simp only [jobName.String] at *
  simp only [hget, hlive, hmap, JobsMap.set, Bool.not_true, Bool.false_eq_true, if_false]
  rfl

theorem trackRunningJob_completed_nil (env : Env σ β) (s : state σ β) (name : jobName)
    (rj : rufio.Job)
    (hmap : s.workflow.Status.BootOptions.Jobs = none)
    (hget : (env.Get s.client { Name := name, Namespace := s.workflow.Namespace }).1 = Except.ok rj)
    (hfail : rj.HasCondition rufio.JobConditionType.JobFailed
      rufio.ConditionStatus.ConditionTrue = false)
    (hcomp : rj.HasCondition rufio.JobConditionType.JobCompleted
      rufio.ConditionStatus.ConditionTrue = true) :
    trackRunningJob env s name
      = Outcome.panicked "assignment to entry in nil map" (afterGet env s name) := by
  unfold trackRunningJob
  simp only [jobName.String] at *
  simp only [hget, hfail, hcomp, hmap, JobsMap.set, Bool.false_eq_true, if_false, if_true]
  rfl

theorem deleteExisting_st_cases (env : Env σ β) (s : state σ β) (name : jobName) :
    (deleteExisting env s name).st = afterDelete env s name
    ∨ ∃ f, s.workflow.Status.BootOptions.Jobs = some f
        ∧ (deleteExisting env s name).st
            = (afterDelete env s name).withJobs
                (assigned f name { UID := "", ExistingJobDeleted := true, Complete := false }) := by
  unfold deleteExisting
  simp only []
  split
  · left; rfl
  · cases hmap : s.workflow.Status.BootOptions.Jobs with
    | none => left; simp only [JobsMap.set]; rfl
    | some f => right; exact ⟨f, rfl, by simp only [JobsMap.set]; rfl⟩

theorem createJob_st_cases (env : Env σ β) (s : state σ β) (actions : List rufio.Action)
    (name : jobName) :
    (createJob env s actions name).st = afterGet env s name
    ∨ (∃ uid f, s.workflow.Status.BootOptions.Jobs = some f
        ∧ (createJob env s actions name).st
            = (afterGet env s name).withJobs (assigned f name { s.job name with UID := uid }))
    ∨ (createJob env s actions name).st = afterHardware env s name
    ∨ ∃ bmc, (createJob env s actions name).st = afterCreate env s name bmc actions := by
  cases hget : (env.Get s.client { Name := name, Namespace := s.workflow.Namespace }).1 with
  | error e =>
    right; right
    cases hhw : (env.hardwareFrom (afterGet env s name).client s.workflow).1 with
    | error e2 =>
      left; rw [createJob_hardware_error env s actions name e e2 hget hhw]; rfl
    | ok hw =>
      cases hbmc : hw.BMCRef with
      | none => left; rw [createJob_no_bmc env s actions name e hw hget hhw hbmc]; rfl
      | some bmc =>
        right; refine ⟨bmc, ?_⟩
        cases hcreate : (env.Create (afterHardware env s name).client
            (newJob name bmc s.workflow.Namespace actions)).1 with
        | none => rw [createJob_created env s actions name e hw bmc hget hhw hbmc hcreate]; rfl
        | some e3 =>
          rw [createJob_create_error env s actions name e e3 hw bmc hget hhw hbmc hcreate]; rfl
  | ok rj =>
    cases hz : metav1.IsZero rj.DeletionTimestamp with
    | false => left; rw [createJob_deleting env s actions name rj hget hz]; rfl
    | true =>
      cases hmap : s.workflow.Status.BootOptions.Jobs with
      | none => left; rw [createJob_found_nil env s actions name rj hmap hget hz]; rfl
      | some f =>
        right; left
        exact ⟨rj.UID, f, rfl, by rw [createJob_found env s actions name rj f hmap hget hz]; rfl⟩

theorem trackRunningJob_st_cases (env : Env σ β) (s : state σ β) (name : jobName) :
    (trackRunningJob env s name).st = afterGet env s name
    ∨ (∃ f, s.workflow.Status.BootOptions.Jobs = some f
        ∧ (trackRunningJob env s name).st
            = (afterGet env s name).withJobs (assigned f name { s.job name with Complete := true }))
    ∨ (trackRunningJob env s name).st = afterWait env s name := by
  cases hget : (env.Get s.client { Name := name, Namespace := s.workflow.Namespace }).1 with
  | error e => left; rw [trackRunningJob_get_error env s name e hget]; rfl
  | ok rj =>
    cases hfail : rj.HasCondition rufio.JobConditionType.JobFailed
        rufio.ConditionStatus.ConditionTrue with
    | true => left; rw [trackRunningJob_failed env s name rj hget hfail]; rfl
    | false =>
      cases hcomp : rj.HasCondition rufio.JobConditionType.JobCompleted
          rufio.ConditionStatus.ConditionTrue with
      | false => right; right; rw [trackRunningJob_running env s name rj hget hfail hcomp]; rfl
      | true =>
        cases hmap : s.workflow.Status.BootOptions.Jobs with
        | none =>
          left; rw [trackRunningJob_completed_nil env s name rj hmap hget hfail hcomp]; rfl
        | some f =>
          right; left
          exact ⟨f, rfl, by
            rw [trackRunningJob_completed env s name rj f hmap hget hfail hcomp]; rfl⟩

theorem handleJob_create_st (env : Env σ β) (s : state σ β) (actions : List rufio.Action)
    (name : jobName)
    (hdel : (s.job name).ExistingJobDeleted = true)
    (huid : (s.job name).UID = "") :
    (handleJob env s actions name).st = (createJob env s actions name).st
    ∨ ∃ c, (handleJob env s actions name).st = (createJob env s actions name).st.setCondition c := by
  unfold state.job at hdel huid
  unfold handleJob
  simp only [hdel, huid, Bool.not_true, Bool.false_eq_true, if_false, if_true]
  split
  · next h => left; rw [h]; try rfl
  · next h => right; rw [h]; exact ⟨_, rfl⟩
  · next h => right; rw [h]; exact ⟨_, rfl⟩

theorem handleJob_track_st (env : Env σ β) (s : state σ β) (actions : List rufio.Action)
    (name : jobName)
    (hdel : (s.job name).ExistingJobDeleted = true)
    (huid : (s.job name).UID ≠ "")
    (hrun : (s.job name).Complete = false) :
    (handleJob env s actions name).st = (trackRunningJob env s name).st
    ∨ ∃ c, (handleJob env s actions name).st = (trackRunningJob env s name).st.setCondition c := by
  unfold state.job at hdel huid hrun
  unfold handleJob
  simp only [hdel, huid, hrun, Bool.not_true, Bool.not_false, Bool.false_eq_true, if_false,
    if_true]
  split
  · next h => left; rw [h]; try rfl
  · next h => right; rw [h]; exact ⟨_, rfl⟩
  · next h =>
    rw [h]
    split
    · right; exact ⟨_, rfl⟩
    · left; rfl

/-! ### The requests of one call -/

theorem createJob_requests (env : Env σ β) (s : state σ β) (actions : List rufio.Action)
    (name : jobName) :
    ∃ new, (createJob env s actions name).st.requests = s.requests ++ new
      ∧ (new = [Request.get (jobKey name s.workflow.Namespace)]
        ∨ new = [Request.get (jobKey name s.workflow.Namespace),
            Request.hardwareFrom s.workflow.HardwareRef s.workflow.Namespace]
        ∨ ∃ bmc, new = [Request.get (jobKey name s.workflow.Namespace),
            Request.hardwareFrom s.workflow.HardwareRef s.workflow.Namespace,
            Request.create (newJob name bmc s.workflow.Namespace actions)]) := by
  rcases createJob_st_cases env s actions name with h | ⟨uid, f, _, h⟩ | h | ⟨bmc, h⟩
  · exact ⟨_, by rw [h]; rfl, Or.inl rfl⟩
  · exact ⟨_, by rw [h]; rfl, Or.inl rfl⟩
  · refine ⟨_, ?_, Or.inr (Or.inl rfl)⟩
    rw [h]; simp [afterHardware, afterGet, jobKey]
  · refine ⟨_, ?_, Or.inr (Or.inr ⟨bmc, rfl⟩)⟩
    rw [h]; simp [afterCreate, afterHardware, afterGet, jobKey, jobName.String]

theorem trackRunningJob_requests (env : Env σ β) (s : state σ β) (name : jobName) :
    (trackRunningJob env s name).st.requests
      = s.requests ++ [Request.get (jobKey name s.workflow.Namespace)] := by
  rcases trackRunningJob_st_cases env s name with h | ⟨f, _, h⟩ | h <;> rw [h] <;> rfl

theorem handleJob_requests (env : Env σ β) (s : state σ β) (actions : List rufio.Action)
    (name : jobName) :
    ((s.job name).ExistingJobDeleted = false
      ∧ (handleJob env s actions name).st.requests
          = s.requests ++ [deleteRequest name s.workflow.Namespace])
    ∨ ((s.job name).ExistingJobDeleted = true ∧ (s.job name).UID = ""
      ∧ ∃ new, (handleJob env s actions name).st.requests = s.requests ++ new
        ∧ (new = [Request.get (jobKey name s.workflow.Namespace)]
          ∨ new = [Request.get (jobKey name s.workflow.Namespace),
              Request.hardwareFrom s.workflow.HardwareRef s.workflow.Namespace]
          ∨ ∃ bmc, new = [Request.get (jobKey name s.workflow.Namespace),
              Request.hardwareFrom s.workflow.HardwareRef s.workflow.Namespace,
              Request.create (newJob name bmc s.workflow.Namespace actions)]))
    ∨ ((s.job name).ExistingJobDeleted = true ∧ (s.job name).UID ≠ ""
      ∧ (s.job name).Complete = false
      ∧ (handleJob env s actions name).st.requests
          = s.requests ++ [Request.get (jobKey name s.workflow.Namespace)])
    ∨ ((s.job name).ExistingJobDeleted = true ∧ (s.job name).UID ≠ ""
      ∧ (s.job name).Complete = true
      ∧ (handleJob env s actions name).st.requests = s.requests) := by
  cases hdel : (s.job name).ExistingJobDeleted with
  | false =>
    left
    refine ⟨rfl, ?_⟩
    rw [(handleJob_cleanup_eq env s actions name hdel).1]
    exact deleteExisting_requests env s name
  | true =>
    right
    by_cases huid : (s.job name).UID = ""
    · left
      refine ⟨rfl, huid, ?_⟩
      obtain ⟨new, hnew, hcases⟩ := createJob_requests env s actions name
      refine ⟨new, ?_, hcases⟩
      rcases handleJob_create_st env s actions name hdel huid with h | ⟨c, h⟩
      · rw [h]; exact hnew
      · rw [h]; exact hnew
    · right
      cases hrun : (s.job name).Complete with
      | false =>
        left
        refine ⟨rfl, huid, rfl, ?_⟩
        rcases handleJob_track_st env s actions name hdel huid hrun with h | ⟨c, h⟩
        · rw [h]; exact trackRunningJob_requests env s name
        · rw [h]; exact trackRunningJob_requests env s name
      | true =>
        right
        exact ⟨rfl, huid, rfl, by rw [handleJob_done_eq env s actions name hdel huid hrun]; rfl⟩

/-- C9: the requests one `handleJob` call adds to the trace hold at most one
side-effecting request (deletes plus creates); a delete is sent only in the
Cleanup phase (ExistingJobDeleted false), a create only in the Create phase
(ExistingJobDeleted true, UID empty), and in the Track and Done phases
(ExistingJobDeleted true, UID non-empty) none is sent. -/
theorem at_most_one_side_effect (env : Env σ β) (s : state σ β) (actions : List rufio.Action)
    (name : jobName) :
    ∃ new : List Request,
      (handleJob env s actions name).st.requests = s.requests ++ new
      ∧ sideEffects new ≤ 1
      ∧ ((∃ r ∈ new, r.isDelete = true) → (s.job name).ExistingJobDeleted = false)
      ∧ ((∃ r ∈ new, r.isCreate = true) →
          (s.job name).ExistingJobDeleted = true ∧ (s.job name).UID = "")
      ∧ ((s.job name).ExistingJobDeleted = true → (s.job name).UID ≠ "" →
          sideEffects new = 0) := by
  rcases handleJob_requests env s actions name with
    ⟨hdel, h⟩ | ⟨hdel, huid, new, h, hnew⟩ | ⟨hdel, huid, _, h⟩ | ⟨hdel, huid, _, h⟩
  · refine ⟨_, h, ?_, fun _ => hdel, ?_, ?_⟩
    · simp [sideEffects, deleteRequest]
    · simp [deleteRequest, Request.isCreate]
    · intro h1; rw [hdel] at h1; cases h1
  · refine ⟨new, h, ?_, ?_, fun _ => ⟨hdel, huid⟩, fun _ h2 => absurd huid h2⟩
    · rcases hnew with rfl | rfl | ⟨bmc, rfl⟩ <;> simp [sideEffects]
    · rcases hnew with rfl | rfl | ⟨bmc, rfl⟩ <;> simp [Request.isDelete]
  · refine ⟨_, h, ?_, ?_, ?_, ?_⟩
    · simp [sideEffects]
    · simp [Request.isDelete]
    · simp [Request.isCreate]
    · intro _ _; simp [sideEffects]
  · refine ⟨[], by simpa using h, ?_, ?_, ?_, ?_⟩
    · simp [sideEffects]
    · simp
    · simp
    · intro _ _; simp [sideEffects]

/-! ### The job statuses after one call -/

theorem get_assigned (s : state σ β) (f : String → Option JobStatus) (name n : jobName)
    (v : JobStatus) (hmap : s.workflow.Status.BootOptions.Jobs = some f) :
    (assigned f name v).get n = if n = name then v else s.job n := by
  unfold state.job
  rw [hmap]
  by_cases hn : n = name <;> simp [assigned, JobsMap.get, hn, jobName.String]

theorem deleteExisting_job (env : Env σ β) (s : state σ β) (name n : jobName) :
    (deleteExisting env s name).st.job n = s.job n
    ∨ (n = name ∧ (deleteExisting env s name).st.job n
        = { UID := "", ExistingJobDeleted := true, Complete := false }) := by
  rcases deleteExisting_st_cases env s name with h | ⟨f, hf, h⟩
  · left; rw [h]; rfl
  · by_cases hn : n = name
    · right; exact ⟨hn, by rw [h, job_withJobs, get_assigned s f name n _ hf, if_pos hn]⟩
    · left; rw [h, job_withJobs, get_assigned s f name n _ hf, if_neg hn]

theorem createJob_job (env : Env σ β) (s : state σ β) (actions : List rufio.Action)
    (name n : jobName) :
    (createJob env s actions name).st.job n = s.job n
    ∨ (n = name ∧ ∃ uid, (createJob env s actions name).st.job n = { s.job name with UID := uid }) := by
  rcases createJob_st_cases env s actions name with h | ⟨uid, f, hf, h⟩ | h | ⟨bmc, h⟩
  · left; rw [h]; rfl
  · by_cases hn : n = name
    · right; exact ⟨hn, uid, by rw [h, job_withJobs, get_assigned s f name n _ hf, if_pos hn]⟩
    · left; rw [h, job_withJobs, get_assigned s f name n _ hf, if_neg hn]
  · left; rw [h]; rfl
  · left; rw [h]; rfl

theorem trackRunningJob_job (env : Env σ β) (s : state σ β) (name n : jobName) :
    (trackRunningJob env s name).st.job n = s.job n
    ∨ (n = name ∧ (trackRunningJob env s name).st.job n = { s.job name with Complete := true }) := by
  rcases trackRunningJob_st_cases env s name with h | ⟨f, hf, h⟩ | h
  · left; rw [h]; rfl
  · by_cases hn : n = name
    · right; exact ⟨hn, by rw [h, job_withJobs, get_assigned s f name n _ hf, if_pos hn]⟩
    · left; rw [h, job_withJobs, get_assigned s f name n _ hf, if_neg hn]
  · left; rw [h]; rfl

theorem handleJob_job (env : Env σ β) (s : state σ β) (actions : List rufio.Action)
    (name n : jobName) :
    (handleJob env s actions name).st.job n = s.job n
    ∨ (n = name ∧ (s.job name).ExistingJobDeleted = false
      ∧ (handleJob env s actions name).st.job n
          = { UID := "", ExistingJobDeleted := true, Complete := false })
    ∨ (n = name ∧ (s.job name).ExistingJobDeleted = true ∧ (s.job name).UID = ""
      ∧ ∃ uid, (handleJob env s actions name).st.job n = { s.job name with UID := uid })
    ∨ (n = name ∧ (s.job name).ExistingJobDeleted = true ∧ (s.job name).UID ≠ ""
      ∧ (s.job name).Complete = false
      ∧ (handleJob env s actions name).st.job n = { s.job name with Complete := true }) := by
  cases hdel : (s.job name).ExistingJobDeleted with
  | false =>
    rw [(handleJob_cleanup_eq env s actions name hdel).1]
    rcases deleteExisting_job env s name n with h | ⟨hn, h⟩
    · left; exact h
    · right; left; exact ⟨hn, rfl, h⟩
  | true =>
    by_cases huid : (s.job name).UID = ""
    · have hst : ∀ m, (handleJob env s actions name).st.job m
          = (createJob env s actions name).st.job m := by
        intro m
        rcases handleJob_create_st env s actions name hdel huid with h | ⟨c, h⟩ <;> rw [h]
        rfl
      rw [hst]
      rcases createJob_job env s actions name n with h | ⟨hn, uid, h⟩
      · left; exact h
      · right; right; left; exact ⟨hn, rfl, huid, uid, h⟩
    · cases hrun : (s.job name).Complete with
      | false =>
        have hst : ∀ m, (handleJob env s actions name).st.job m
            = (trackRunningJob env s name).st.job m := by
          intro m
          rcases handleJob_track_st env s actions name hdel huid hrun with h | ⟨c, h⟩ <;> rw [h]
          rfl
        rw [hst]
        rcases trackRunningJob_job env s name n with h | ⟨hn, h⟩
        · left; exact h
        · right; right; right; exact ⟨hn, rfl, huid, rfl, h⟩
      | true =>
        left
        rw [handleJob_done_eq env s actions name hdel huid hrun]; rfl

theorem handleJob_preserves (env : Env σ β) (s : state σ β) (actions : List rufio.Action)
    (name : jobName)
    (inv : ∀ n : jobName, (s.job n).Complete = true →
      (s.job n).UID ≠ "" ∧ (s.job n).ExistingJobDeleted = true)
    (n : jobName) :
    ((handleJob env s actions name).st.job n).Complete = true →
      ((handleJob env s actions name).st.job n).UID ≠ ""
      ∧ ((handleJob env s actions name).st.job n).ExistingJobDeleted = true := by
  rcases handleJob_job env s actions name n with
    h | ⟨_, _, h⟩ | ⟨_, hdel, huid, uid, h⟩ | ⟨_, hdel, huid, _, h⟩
  · rw [h]; exact inv n
  · rw [h]; intro hc; cases hc
  · rw [h]
    intro hc
    exact absurd huid (inv name hc).1
  · rw [h]
    intro _
    exact ⟨huid, hdel⟩

/-- C1: in every state reachable from zero-value job statuses by `handleJob`
calls (any job names, any action lists, any behaviour of the store and of the
backoff), for every job name, Complete is true only if UID is non-empty and
ExistingJobDeleted is true. -/
theorem complete_only_after_uid_and_cleanup (s : state σ β) (h : Reachable s) (name : jobName) :
    (s.job name).Complete = true →
      (s.job name).UID ≠ "" ∧ (s.job name).ExistingJobDeleted = true := by
  revert name
  induction h with
  | init s zero =>
    intro name hc
    rw [zero name] at hc
    cases hc
  | call env s actions name _ ih =>
    intro n
    exact handleJob_preserves env s actions name ih n
  | external s c b _ ih =>
    intro n
    exact ih n

/-! ### Failure of the cleanup step -/

theorem deleteExisting_failed (env : Env σ β) (s : state σ β) (name : jobName) (e : GoError)
    (hfail : (env.Delete s.client { Name := name, Namespace := s.workflow.Namespace }
      [client.DeleteOption.GracePeriodSeconds 0,
       client.DeleteOption.PropagationPolicy
         metav1.DeletionPropagation.DeletePropagationForeground]).1 = some e)
    (hnf : e.IsNotFound = false) :
    deleteExisting env s name
      = Outcome.returned
          ({}, some (fmt.Errorf_w "error deleting job.bmc.tinkerbell.org object: " e))
          (afterDelete env s name) := by
  unfold deleteExisting
  simp only [jobName.String] at *
  simp only [hfail, client.IgnoreNotFound, hnf, Bool.false_eq_true, if_false]
  rfl

/-- C17: in the Cleanup phase, when the delete request fails with an error `e`
that is not "not found", `handleJob` returns requeue=false and the error
"error deleting job.bmc.tinkerbell.org object: " followed by the text of `e`
(wrapping `e`); the job map and the conditions are as they were, so the entry
still has ExistingJobDeleted false and the next call is in the Cleanup phase
again. -/
theorem cleanup_failure_is_atomic (env : Env σ β) (s : state σ β) (actions : List rufio.Action)
    (name : jobName) (e : GoError)
    (hdel : (s.job name).ExistingJobDeleted = false)
    (hfail : (env.Delete s.client { Name := name, Namespace := s.workflow.Namespace }
      [client.DeleteOption.GracePeriodSeconds 0,
       client.DeleteOption.PropagationPolicy
         metav1.DeletionPropagation.DeletePropagationForeground]).1 = some e)
    (hnf : e.IsNotFound = false) :
    (handleJob env s actions name).val?
        = some ({ Requeue := false, RequeueAfter := 0 },
            some (GoError.wrapError
              ("error deleting job.bmc.tinkerbell.org object: " ++ e.Error) e))
    ∧ (handleJob env s actions name).st.workflow.Status.BootOptions.Jobs
        = s.workflow.Status.BootOptions.Jobs
    ∧ (handleJob env s actions name).st.job name = s.job name
    ∧ (handleJob env s actions name).st.workflow.Status.Conditions
        = s.workflow.Status.Conditions
    ∧ ((handleJob env s actions name).st.job name).ExistingJobDeleted = false := by
  obtain ⟨hst, hval⟩ := handleJob_cleanup_eq env s actions name hdel
  rw [hst, hval, deleteExisting_failed env s name e hfail hnf]
  exact ⟨rfl, rfl, rfl, rfl, hdel⟩

/-! ### Precedence of the Failed condition -/

theorem mem_setConditionList_cases (cs : List WorkflowCondition) (wc c : WorkflowCondition)
    (h : c ∈ setConditionList cs wc) : c = wc ∨ c ∈ cs := by
  induction cs with
  | nil =>
    simp only [setConditionList, List.mem_singleton] at h
    exact Or.inl h
  | cons d ds ih =>
    unfold setConditionList at h
    split at h
    · rcases List.mem_cons.mp h with h1 | h1
      · exact Or.inl h1
      · exact Or.inr (List.mem_cons_of_mem _ h1)
    · rcases List.mem_cons.mp h with h1 | h1
      · exact Or.inr (h1 ▸ List.mem_cons_self _ _)
      · rcases ih h1 with h2 | h2
        · exact Or.inl h2
        · exact Or.inr (List.mem_cons_of_mem _ h2)

/-- C19: in the Track phase, when the fetched job carries both a Failed and a
Completed condition with status true, `handleJob` returns the error
"job failed", records a JobFailed condition with that message, adds no
JobComplete condition (any JobComplete condition present afterwards was there
before), and leaves the job map as it was, Complete false. -/
theorem failed_takes_precedence (env : Env σ β) (s : state σ β) (actions : List rufio.Action)
    (name : jobName) (rj : rufio.Job)
    (hdel : (s.job name).ExistingJobDeleted = true)
    (huid : (s.job name).UID ≠ "")
    (hrun : (s.job name).Complete = false)
    (hget : (env.Get s.client { Name := name, Namespace := s.workflow.Namespace }).1
      = Except.ok rj)
    (hfail : rj.HasCondition rufio.JobConditionType.JobFailed
      rufio.ConditionStatus.ConditionTrue = true)
    (hcomp : rj.HasCondition rufio.JobConditionType.JobCompleted
      rufio.ConditionStatus.ConditionTrue = true) :
    (handleJob env s actions name).val? = some ({}, some (GoError.errorString "job failed" false))
    ∧ (∃ c ∈ (handleJob env s actions name).st.workflow.Status.Conditions,
        c.Type_ = WorkflowConditionType.NetbootJobFailed
        ∧ c.Status = metav1.ConditionStatus.ConditionTrue
        ∧ c.Message = "job failed")
    ∧ (∀ c ∈ (handleJob env s actions name).st.workflow.Status.Conditions,
        c.Type_ = WorkflowConditionType.NetbootJobComplete →
        c ∈ s.workflow.Status.Conditions)
    ∧ (handleJob env s actions name).st.workflow.Status.BootOptions.Jobs
        = s.workflow.Status.BootOptions.Jobs
    ∧ ((handleJob env s actions name).st.job name).Complete = false := by
  have _ := hcomp
  rw [handleJob_track_err env s _ actions name _ _ _ hdel huid hrun
    (trackRunningJob_failed env s name rj hget hfail)]
  refine ⟨rfl, ⟨_, conditions_setCondition _ _, rfl, rfl, rfl⟩, ?_, rfl, hrun⟩
  intro c hc hty
  rcases mem_setConditionList_cases _ _ c hc with h | h
  · rw [h] at hty
    cases hty
  · exact h

/-! ### The frame of one call -/

/-- C18: a `handleJob` call for the job name `name` leaves the status entry of
every other job name as it was, and every request it sends for a job (get,
delete, create) carries the name `name` and the namespace of the workflow. -/
theorem other_jobs_untouched (env : Env σ β) (s : state σ β) (actions : List rufio.Action)
    (name : jobName) :
    (∀ m : jobName, m ≠ name → (handleJob env s actions name).st.job m = s.job m)
    ∧ ∃ new : List Request,
        (handleJob env s actions name).st.requests = s.requests ++ new
        ∧ ∀ r ∈ new, r.targets name s.workflow.Namespace := by
  constructor
  · intro m hm
    rcases handleJob_job env s actions name m with h | ⟨h, _⟩ | ⟨h, _⟩ | ⟨h, _⟩
    · exact h
    · exact absurd h hm
    · exact absurd h hm
    · exact absurd h hm
  · rcases handleJob_requests env s actions name with
      ⟨_, h⟩ | ⟨_, _, new, h, hnew⟩ | ⟨_, _, _, h⟩ | ⟨_, _, _, h⟩
    · refine ⟨_, h, ?_⟩
      intro r hr
      rw [List.mem_singleton] at hr
      subst hr
      exact ⟨rfl, rfl⟩
    · refine ⟨new, h, ?_⟩
      rcases hnew with rfl | rfl | ⟨bmc, rfl⟩ <;> intro r hr <;>
        simp only [List.mem_cons, List.mem_singleton, List.not_mem_nil, or_false] at hr
      · subst hr; exact ⟨rfl, rfl⟩
      · rcases hr with rfl | rfl
        · exact ⟨rfl, rfl⟩
        · trivial
      · rcases hr with rfl | rfl | rfl
        · exact ⟨rfl, rfl⟩
        · trivial
        · exact ⟨rfl, rfl⟩
    · refine ⟨_, h, ?_⟩
      intro r hr
      rw [List.mem_singleton] at hr
      subst hr
      exact ⟨rfl, rfl⟩
    · exact ⟨[], by simpa using h, by simp⟩

/-! ### The backoff -/

theorem deleteExisting_no_backoff (env : Env σ β) (s : state σ β) (name : jobName) :
    (deleteExisting env s name).st.sleeps = s.sleeps
    ∧ (deleteExisting env s name).st.backoff = s.backoff := by
  rcases deleteExisting_st_cases env s name with h | ⟨f, _, h⟩ <;> rw [h] <;> exact ⟨rfl, rfl⟩

theorem createJob_no_backoff (env : Env σ β) (s : state σ β) (actions : List rufio.Action)
    (name : jobName) :
    (createJob env s actions name).st.sleeps = s.sleeps
    ∧ (createJob env s actions name).st.backoff = s.backoff := by
  rcases createJob_st_cases env s actions name with h | ⟨uid, f, _, h⟩ | h | ⟨bmc, h⟩ <;>
    rw [h] <;> exact ⟨rfl, rfl⟩

theorem handleJob_backoff_cases (env : Env σ β) (s : state σ β) (actions : List rufio.Action)
    (name : jobName) :
    (stillRunning env s name
      ∧ handleJob env s actions name
          = Outcome.returned ({ Requeue := true }, none) (afterWait env s name))
    ∨ (¬ stillRunning env s name
      ∧ (handleJob env s actions name).st.sleeps = s.sleeps
      ∧ (handleJob env s actions name).st.backoff = s.backoff) := by
  cases hdel : (s.job name).ExistingJobDeleted with
  | false =>
    right
    refine ⟨fun h => (by rw [h.1] at hdel; cases hdel), ?_⟩
    rw [(handleJob_cleanup_eq env s actions name hdel).1]
    exact deleteExisting_no_backoff env s name
  | true =>
    by_cases huid : (s.job name).UID = ""
    · right
      refine ⟨fun h => h.2.1 huid, ?_⟩
      rcases handleJob_create_st env s actions name hdel huid with h | ⟨c, h⟩ <;> rw [h] <;>
        exact createJob_no_backoff env s actions name
    · cases hrun : (s.job name).Complete with
      | true =>
        right
        refine ⟨fun h => (by rw [h.2.2.1] at hrun; cases hrun), ?_⟩
        rw [handleJob_done_eq env s actions name hdel huid hrun]
        exact ⟨rfl, rfl⟩
      | false =>
        cases hget : (env.Get s.client { Name := name, Namespace := s.workflow.Namespace }).1 with
        | error e =>
          right
          refine ⟨?_, ?_⟩
          · rintro ⟨_, _, _, rj, h, _⟩
            unfold jobKey at h
            rw [jobName.String, hget] at h
            cases h
          · rw [handleJob_track_err env s _ actions name _ _ _ hdel huid hrun
              (trackRunningJob_get_error env s name e hget)]
            exact ⟨rfl, rfl⟩
        | ok rj =>
          have hrj : ∀ rj2, (env.Get s.client (jobKey name s.workflow.Namespace)).1
              = Except.ok rj2 → rj2 = rj := by
            intro rj2 h
            unfold jobKey at h
            rw [jobName.String, hget] at h
            cases h
            rfl
          cases hfail : rj.HasCondition rufio.JobConditionType.JobFailed
              rufio.ConditionStatus.ConditionTrue with
          | true =>
            right
            refine ⟨?_, ?_⟩
            · rintro ⟨_, _, _, rj2, h, hf, _⟩
              rw [hrj rj2 h, hfail] at hf
              cases hf
            · rw [handleJob_track_err env s _ actions name _ _ _ hdel huid hrun
                (trackRunningJob_failed env s name rj hget hfail)]
              exact ⟨rfl, rfl⟩
          | false =>
            cases hcomp : rj.HasCondition rufio.JobConditionType.JobCompleted
                rufio.ConditionStatus.ConditionTrue with
            | true =>
              right
              refine ⟨?_, ?_⟩
              · rintro ⟨_, _, _, rj2, h, _, hc⟩
                rw [hrj rj2 h, hcomp] at hc
                cases hc
              · obtain ⟨f, hf⟩ := JobsMap_some_of_deleted _ _ hdel
                rw [handleJob_track_complete env s _ actions name _ hdel huid hrun
                  (trackRunningJob_completed env s name rj f hf hget hfail hcomp)]
                exact ⟨rfl, rfl⟩
            | false =>
              left
              refine ⟨⟨hdel, huid, hrun, rj, hget, hfail, hcomp⟩, ?_⟩
              exact handleJob_track_running env s _ actions name _ hdel huid hrun
                (trackRunningJob_running env s name rj hget hfail hcomp)

/-- C12: `handleJob` consumes a backoff interval exactly when it is in the
Track phase and the job it fetches carries neither a Failed nor a Completed
condition with status true. In that case it makes one `NextBackOff` call, waits
that long once, returns requeue=true with no error and leaves the workflow (job
map and conditions) as it was; on every other path no `NextBackOff` call and no
wait happen. -/
theorem backoff_only_while_running (env : Env σ β) (s : state σ β) (actions : List rufio.Action)
    (name : jobName) :
    ((∃ d, (handleJob env s actions name).st.sleeps = s.sleeps ++ [d])
      ↔ stillRunning env s name)
    ∧ (stillRunning env s name →
        (handleJob env s actions name).val? = some ({ Requeue := true }, none)
        ∧ (handleJob env s actions name).st.sleeps
            = s.sleeps ++ [(env.NextBackOff s.backoff).1]
        ∧ (handleJob env s actions name).st.backoff = (env.NextBackOff s.backoff).2
        ∧ (handleJob env s actions name).st.workflow.Status.BootOptions.Jobs
            = s.workflow.Status.BootOptions.Jobs
        ∧ (handleJob env s actions name).st.workflow.Status.Conditions
            = s.workflow.Status.Conditions)
    ∧ (¬ stillRunning env s name →
        (handleJob env s actions name).st.sleeps = s.sleeps
        ∧ (handleJob env s actions name).st.backoff = s.backoff) := by
  rcases handleJob_backoff_cases env s actions name with ⟨hr, h⟩ | ⟨hn, hs, hb⟩
  · rw [h]
    refine ⟨⟨fun _ => hr, fun _ => ⟨_, rfl⟩⟩, fun _ => ⟨rfl, rfl, rfl, rfl, rfl⟩,
      fun hn => absurd hr hn⟩
  · refine ⟨⟨?_, fun hr => absurd hr hn⟩, fun hr => absurd hr hn, fun _ => ⟨hs, hb⟩⟩
    rintro ⟨d, hd⟩
    rw [hs] at hd
    have := congrArg List.length hd
    simp at this

/-! ### The conditions of one call -/

/-- C16, as amended: in the Create phase `handleJob` sets exactly one setup
condition per call. When the create step returns no error it is the
SetupComplete condition (reason "Created", message "job created"), and the call
either found the job in the store (marked for deletion or adopted) and sent
only the get request, or sent the create request. When the create step returns
an error it is the SetupFailed condition (reason "Error", message
"error creating job: " followed by the error). -/
theorem setup_condition_follows_error (env : Env σ β) (s : state σ β)
    (actions : List rufio.Action) (name : jobName)
    (hdel : (s.job name).ExistingJobDeleted = true)
    (huid : (s.job name).UID = "") :
    (∃ r now,
      (handleJob env s actions name).val? = some (r, none)
      ∧ (handleJob env s actions name).st.workflow.Status.Conditions
          = setConditionList s.workflow.Status.Conditions
              { Type_ := WorkflowConditionType.NetbootJobSetupComplete
                Status := metav1.ConditionStatus.ConditionTrue
                Reason := "Created"
                Message := "job created"
                Time := some now }
      ∧ ((∃ rj, (env.Get s.client { Name := name, Namespace := s.workflow.Namespace }).1
              = Except.ok rj
            ∧ (handleJob env s actions name).st.requests
                = s.requests ++ [Request.get { Name := name, Namespace := s.workflow.Namespace }])
          ∨ ∃ bmc, (handleJob env s actions name).st.requests
              = s.requests ++ [Request.get { Name := name, Namespace := s.workflow.Namespace },
                  Request.hardwareFrom s.workflow.HardwareRef s.workflow.Namespace,
                  Request.create (newJob name bmc s.workflow.Namespace actions)]))
    ∨ (∃ r err now,
      (handleJob env s actions name).val? = some (r, some err)
      ∧ (handleJob env s actions name).st.workflow.Status.Conditions
          = setConditionList s.workflow.Status.Conditions
              { Type_ := WorkflowConditionType.NetbootJobSetupFailed
                Status := metav1.ConditionStatus.ConditionTrue
                Reason := "Error"
                Message := "error creating job: " ++ err.Error
                Time := some now }) := by
  obtain ⟨f, hf⟩ := JobsMap_some_of_deleted _ _ hdel
  cases hget : (env.Get s.client { Name := name, Namespace := s.workflow.Namespace }).1 with
  | error e =>
    cases hhw : (env.hardwareFrom (afterGet env s name).client s.workflow).1 with
    | error e2 =>
      right
      rw [handleJob_create_err env s _ actions name _ _ hdel huid
        (createJob_hardware_error env s actions name e e2 hget hhw)]
      exact ⟨_, _, _, rfl, rfl⟩
    | ok hw =>
      cases hbmc : hw.BMCRef with
      | none =>
        right
        rw [handleJob_create_err env s _ actions name _ _ hdel huid
          (createJob_no_bmc env s actions name e hw hget hhw hbmc)]
        exact ⟨_, _, _, rfl, rfl⟩
      | some bmc =>
        cases hcreate : (env.Create (afterHardware env s name).client
            (newJob name bmc s.workflow.Namespace actions)).1 with
        | none =>
          left
          rw [handleJob_create_ok env s _ actions name _ hdel huid
            (createJob_created env s actions name e hw bmc hget hhw hbmc hcreate)]
          refine ⟨_, _, rfl, rfl, Or.inr ⟨bmc, ?_⟩⟩
          simp [Outcome.st, afterCreate, afterHardware, afterGet, jobName.String]
        | some e3 =>
          right
          rw [handleJob_create_err env s _ actions name _ _ hdel huid
            (createJob_create_error env s actions name e e3 hw bmc hget hhw hbmc hcreate)]
          exact ⟨_, _, _, rfl, rfl⟩
  | ok rj =>
    left
    cases hz : metav1.IsZero rj.DeletionTimestamp with
    | false =>
      rw [handleJob_create_ok env s _ actions name _ hdel huid
        (createJob_deleting env s actions name rj hget hz)]
      exact ⟨_, _, rfl, rfl, Or.inl ⟨rj, rfl, rfl⟩⟩
    | true =>
      rw [handleJob_create_ok env s _ actions name _ hdel huid
        (createJob_found env s actions name rj f hf hget hz)]
      exact ⟨_, _, rfl, rfl, Or.inl ⟨rj, rfl, rfl⟩⟩

theorem deleteExisting_conditions (env : Env σ β) (s : state σ β) (name : jobName) :
    (deleteExisting env s name).st.workflow.Status.Conditions = s.workflow.Status.Conditions := by
  rcases deleteExisting_st_cases env s name with h | ⟨f, _, h⟩ <;> rw [h] <;> rfl

theorem createJob_conditions (env : Env σ β) (s : state σ β) (actions : List rufio.Action)
    (name : jobName) :
    (createJob env s actions name).st.workflow.Status.Conditions
      = s.workflow.Status.Conditions := by
  rcases createJob_st_cases env s actions name with h | ⟨uid, f, _, h⟩ | h | ⟨bmc, h⟩ <;>
    rw [h] <;> rfl

theorem trackRunningJob_conditions (env : Env σ β) (s : state σ β) (name : jobName) :
    (trackRunningJob env s name).st.workflow.Status.Conditions
      = s.workflow.Status.Conditions := by
  rcases trackRunningJob_st_cases env s name with h | ⟨f, _, h⟩ | h <;> rw [h] <;> rfl

theorem handleJob_conditions (env : Env σ β) (s : state σ β) (actions : List rufio.Action)
    (name : jobName) :
    (handleJob env s actions name).st.workflow.Status.Conditions = s.workflow.Status.Conditions
    ∨ ∃ c, (handleJob env s actions name).st.workflow.Status.Conditions
          = setConditionList s.workflow.Status.Conditions c
        ∧ (((s.job name).ExistingJobDeleted = true ∧ (s.job name).UID = ""
            ∧ (c.Type_ = WorkflowConditionType.NetbootJobSetupComplete
              ∨ c.Type_ = WorkflowConditionType.NetbootJobSetupFailed))
          ∨ ((s.job name).ExistingJobDeleted = true ∧ (s.job name).UID ≠ ""
            ∧ (s.job name).Complete = false
            ∧ (c.Type_ = WorkflowConditionType.NetbootJobFailed
              ∨ c.Type_ = WorkflowConditionType.NetbootJobComplete))) := by
  by_cases hdel : (s.job name).ExistingJobDeleted = true
  · by_cases huid : (s.job name).UID = ""
    · have hdel2 := hdel
      have huid2 := huid
      unfold state.job at hdel2 huid2
      have hc := createJob_conditions env s actions name
      unfold handleJob
      simp only [hdel2, huid2, Bool.not_true, Bool.false_eq_true, if_false, if_true]
      split
      · next h => left; rw [h] at hc; exact hc
      · next h =>
        rename_i r err st
        right; rw [h] at hc
        simp only [Outcome.st] at hc
        refine ⟨setupFailed (env.Now st.client) err, ?_, Or.inl ⟨hdel, huid, Or.inr rfl⟩⟩
        simp only [Outcome.st, state.setCondition, WorkflowStatus.SetCondition, hc]
      · next h =>
        rename_i r st
        right; rw [h] at hc
        simp only [Outcome.st] at hc
        refine ⟨setupComplete (env.Now st.client), ?_, Or.inl ⟨hdel, huid, Or.inl rfl⟩⟩
        simp only [Outcome.st, state.setCondition, WorkflowStatus.SetCondition, hc]
    · by_cases hrun : (s.job name).Complete = true
      · left
        rw [handleJob_done_eq env s actions name hdel huid hrun]
        rfl
      · have hrun1 : (s.job name).Complete = false := by simpa using hrun
        have hdel2 := hdel
        have huid2 := huid
        have hrun2 := hrun1
        unfold state.job at hdel2 huid2 hrun2
        have hc := trackRunningJob_conditions env s name
        unfold handleJob
        simp only [hdel2, huid2, hrun2, Bool.not_true, Bool.not_false, Bool.false_eq_true,
          if_false, if_true]
        split
        · next h => left; rw [h] at hc; exact hc
        · next h =>
          rename_i err st
          right; rw [h] at hc
          simp only [Outcome.st] at hc
          refine ⟨jobFailed (env.Now st.client) err, ?_,
            Or.inr ⟨hdel, huid, hrun1, Or.inl rfl⟩⟩
          simp only [Outcome.st, state.setCondition, WorkflowStatus.SetCondition, hc]
        · next h =>
          rename_i st
          rw [h] at hc
          simp only [Outcome.st] at hc
          split
          · right
            refine ⟨jobComplete (env.Now st.client), ?_,
              Or.inr ⟨hdel, huid, hrun1, Or.inr rfl⟩⟩
            simp only [Outcome.st, state.setCondition, WorkflowStatus.SetCondition, hc]
          · left; exact hc
  · have hdel1 : (s.job name).ExistingJobDeleted = false := by simpa using hdel
    left
    rw [(handleJob_cleanup_eq env s actions name hdel1).1]
    exact deleteExisting_conditions env s name

theorem setConditionList_overwrites (cs : List WorkflowCondition) (c1 c2 : WorkflowCondition)
    (h : c1.Type_ = c2.Type_) :
    setConditionList (setConditionList cs c1) c2 = setConditionList cs c2 := by
  induction cs with
  | nil => simp [setConditionList, h]
  | cons d ds ih =>
    by_cases hd : d.Type_ = c1.Type_
    · have hd2 : d.Type_ = c2.Type_ := hd.trans h
      simp [setConditionList, hd, hd2, h]
    · have hd2 : ¬ d.Type_ = c2.Type_ := fun h2 => hd (h2.trans h.symm)
      simp [setConditionList, hd, hd2, ih]

/-- C11, as amended: the condition types `handleJob` records do not depend on
the job name. For every job name a call leaves the conditions as they were or
sets one condition, of type NetbootJobSetupComplete or NetbootJobSetupFailed
in the Create phase and of type NetbootJobFailed or NetbootJobComplete in the
Track phase; and setting a condition after one of the same type, whatever job
either was written for, leaves only the later one of the two. -/
theorem condition_types_shared_by_job_names (env : Env σ β) (s : state σ β)
    (actions : List rufio.Action) (name : jobName) :
    ((handleJob env s actions name).st.workflow.Status.Conditions = s.workflow.Status.Conditions
      ∨ ∃ c, (handleJob env s actions name).st.workflow.Status.Conditions
            = setConditionList s.workflow.Status.Conditions c
          ∧ (((s.job name).ExistingJobDeleted = true ∧ (s.job name).UID = ""
              ∧ (c.Type_ = WorkflowConditionType.NetbootJobSetupComplete
                ∨ c.Type_ = WorkflowConditionType.NetbootJobSetupFailed))
            ∨ ((s.job name).ExistingJobDeleted = true ∧ (s.job name).UID ≠ ""
              ∧ (s.job name).Complete = false
              ∧ (c.Type_ = WorkflowConditionType.NetbootJobFailed
                ∨ c.Type_ = WorkflowConditionType.NetbootJobComplete))))
    ∧ ∀ (cs : List WorkflowCondition) (c1 c2 : WorkflowCondition), c1.Type_ = c2.Type_ →
        setConditionList (setConditionList cs c1) c2 = setConditionList cs c2 :=
  ⟨handleJob_conditions env s actions name, setConditionList_overwrites⟩

/-! ### The nil job map -/

theorem handleJob_nil_map_panics (env : Env σ β) (s : state σ β) (actions : List rufio.Action)
    (name : jobName)
    (hmap : s.workflow.Status.BootOptions.Jobs = none)
    (hclean : deleteClean env s.client name s.workflow.Namespace) :
    handleJob env s actions name
      = Outcome.panicked "assignment to entry in nil map" (afterDelete env s name) := by
  have hi := ignoreNotFound_of_deleteClean env s.client name s.workflow.Namespace hclean
  unfold existingJob deleteOpts at hi
  have hdel : (s.workflow.Status.BootOptions.Jobs.get name.String).ExistingJobDeleted = false := by
    rw [hmap]; rfl
  have hd : deleteExisting env s name
      = Outcome.panicked "assignment to entry in nil map" (afterDelete env s name) := by
    unfold deleteExisting
    simp only [hi, hmap, JobsMap.set]
    rfl
  unfold handleJob
  simp only [hdel, hd, Bool.not_false, if_true]

theorem handleJob_cleanup_returns (env : Env σ β) (s : state σ β) (actions : List rufio.Action)
    (name : jobName) (f : String → Option JobStatus)
    (hmap : s.workflow.Status.BootOptions.Jobs = some f)
    (hdel : (s.job name).ExistingJobDeleted = false)
    (hclean : deleteClean env s.client name s.workflow.Namespace) :
    handleJob env s actions name
      = Outcome.returned ({ Requeue := true }, none)
          ((afterDelete env s name).withJobs
            (assigned f name { UID := "", ExistingJobDeleted := true, Complete := false })) := by
  have hi := ignoreNotFound_of_deleteClean env s.client name s.workflow.Namespace hclean
  unfold existingJob deleteOpts at hi
  have hdel2 : (s.workflow.Status.BootOptions.Jobs.get name.String).ExistingJobDeleted = false :=
    hdel
  have hd : deleteExisting env s name
      = Outcome.returned ({ Requeue := true }, none)
          ((afterDelete env s name).withJobs
            (assigned f name { UID := "", ExistingJobDeleted := true, Complete := false })) := by
    unfold deleteExisting
    simp only [hi, hmap, JobsMap.set]
    rfl
  unfold handleJob
  simp only [hdel2, hd, Bool.not_false, if_true]

/-- C15, as amended: when the job map is allocated and holds no entry for the
job name, `handleJob` reads the entry as the zero value and runs the Cleanup
phase (its one request is the delete of the job); when the delete succeeds or
reports "not found" the call does not panic, returns requeue=true with no
error, and afterwards the map holds the entry
(UID "", ExistingJobDeleted true, Complete false) for that name, every other
key being as it was. -/
theorem missing_entry_is_born_in_cleanup (env : Env σ β) (s : state σ β)
    (actions : List rufio.Action) (name : jobName) (f : String → Option JobStatus)
    (hmap : s.workflow.Status.BootOptions.Jobs = some f)
    (hmiss : f name = none)
    (hclean : deleteClean env s.client name s.workflow.Namespace) :
    s.job name = { UID := "", ExistingJobDeleted := false, Complete := false }
    ∧ (handleJob env s actions name).st.requests
        = s.requests ++ [Request.delete { Name := name, Namespace := s.workflow.Namespace }
            [client.DeleteOption.GracePeriodSeconds 0,
             client.DeleteOption.PropagationPolicy
               metav1.DeletionPropagation.DeletePropagationForeground]]
    ∧ (handleJob env s actions name).panic? = none
    ∧ (handleJob env s actions name).val? = some ({ Requeue := true }, none)
    ∧ ∃ g, (handleJob env s actions name).st.workflow.Status.BootOptions.Jobs = some g
        ∧ g name = some { UID := "", ExistingJobDeleted := true, Complete := false }
        ∧ ∀ k, k ≠ name → g k = f k := by
  have hzero : s.job name = { UID := "", ExistingJobDeleted := false, Complete := false } := by
    unfold state.job
    rw [hmap]
    simp [JobsMap.get, jobName.String, hmiss]
  have hdel : (s.job name).ExistingJobDeleted = false := by rw [hzero]
  rw [handleJob_cleanup_returns env s actions name f hmap hdel hclean]
  refine ⟨hzero, rfl, rfl, rfl, _, rfl, ?_, ?_⟩
  · simp
  · intro k hk
    simp [hk]

end

/-! ## The theorems at concrete inputs -/

theorem lifecycle4_reachable : Reachable lifecycle4 :=
  Reachable.call fakeEnv lifecycle3 [] "netboot"
    (Reachable.call fakeEnv (externalConditions [completedTrue] lifecycle2) [] "netboot"
      (Reachable.external lifecycle2 _ lifecycle2.backoff
        (Reachable.call fakeEnv lifecycle1 [] "netboot"
          (Reachable.call fakeEnv lifecycle0 [] "netboot"
            (Reachable.init lifecycle0 (fun _ => rfl))))))

theorem complete_only_after_uid_and_cleanup_witness :
    (lifecycle4.job "netboot").Complete = true
    ∧ (lifecycle4.job "netboot").UID ≠ ""
    ∧ (lifecycle4.job "netboot").ExistingJobDeleted = true :=
  ⟨by decide,
    complete_only_after_uid_and_cleanup lifecycle4 lifecycle4_reachable "netboot" (by decide)⟩

theorem cleanup_deletes_once_and_resets_witness :
    (cleanupState.job "netboot").ExistingJobDeleted = false
    ∧ (handleJob fakeEnv cleanupState [] "netboot").val? = some ({ Requeue := true }, none)
    ∧ (handleJob fakeEnv cleanupState [] "netboot").st.job "netboot"
        = { UID := "", ExistingJobDeleted := true, Complete := false } :=
  ⟨by decide,
    (cleanup_deletes_once_and_resets fakeEnv cleanupState [] "netboot" (by decide)).2.1
      (by simp [cleanupState, fakeState, oneJob]) (Or.inl rfl)⟩

theorem create_adopts_existing_job_witness :
    ((createState { jobs := [storedJob "abc" none []] }).job "netboot").UID = ""
    ∧ ((handleJob fakeEnv (createState { jobs := [storedJob "abc" none []] }) []
        "netboot").st.job "netboot").UID = "abc" :=
  ⟨by decide,
    (create_adopts_existing_job fakeEnv (createState { jobs := [storedJob "abc" none []] }) []
      "netboot" (storedJob "abc" none []) (by decide) (by decide) rfl rfl).2.1⟩

/-- C4, as stated, fails: the fetched job carries a Completed condition with
status true (and a Failed one), yet the Track-phase call returns the error
"job failed" and Complete is still false. -/
theorem track_completed_with_failed_counterexample :
    ((trackState [storedJob "uid-1" none [completedTrue, failedTrue]]).job "netboot")
        = { UID := "uid-1", ExistingJobDeleted := true, Complete := false }
    ∧ (storedJob "uid-1" none [completedTrue, failedTrue]).HasCondition
        rufio.JobConditionType.JobCompleted rufio.ConditionStatus.ConditionTrue = true
    ∧ (handleJob fakeEnv (trackState [storedJob "uid-1" none [completedTrue, failedTrue]]) []
        "netboot").val? = some ({}, some (GoError.errorString "job failed" false))
    ∧ ((handleJob fakeEnv (trackState [storedJob "uid-1" none [completedTrue, failedTrue]]) []
        "netboot").st.job "netboot").Complete = false := by
  decide

theorem track_terminal_conditions_witness :
    ((trackState [storedJob "uid-1" none [completedTrue]]).job "netboot").Complete = false
    ∧ (handleJob fakeEnv (trackState [storedJob "uid-1" none [completedTrue]]) []
        "netboot").val? = some ({}, none)
    ∧ (handleJob fakeEnv (trackState [storedJob "uid-1" none [completedTrue]]) []
        "netboot").st.job "netboot"
        = { UID := "uid-1", ExistingJobDeleted := true, Complete := true } :=
  ⟨by decide,
    ((track_terminal_conditions fakeEnv (trackState [storedJob "uid-1" none [completedTrue]]) []
      "netboot" (storedJob "uid-1" none [completedTrue]) (by decide) (by decide) (by decide)
      rfl).2 (by decide) (by decide)).1,
    ((track_terminal_conditions fakeEnv (trackState [storedJob "uid-1" none [completedTrue]]) []
      "netboot" (storedJob "uid-1" none [completedTrue]) (by decide) (by decide) (by decide)
      rfl).2 (by decide) (by decide)).2.1⟩

/-- C5: the code at the failing input. From the zero-value status with no job
in the store, the first call cleans up; the second call creates the job (the
store gives it the UID "uid-1") and leaves the UID of the status empty; the
third call, made after the job got its Completed condition, is therefore in the
Create phase again and only adopts the UID; Complete becomes true in the fourth
call. -/
theorem lifecycle_needs_four_calls :
    lifecycle0.job "netboot" = { UID := "", ExistingJobDeleted := false, Complete := false }
    ∧ lifecycle1.job "netboot" = { UID := "", ExistingJobDeleted := true, Complete := false }
    ∧ lifecycle2.client.jobs.map (fun j => (j.Name, j.UID)) = [("netboot", "uid-1")]
    ∧ lifecycle2.requests.map Request.isCreate = [false, false, false, true]
    ∧ lifecycle2.job "netboot" = { UID := "", ExistingJobDeleted := true, Complete := false }
    ∧ lifecycle3.job "netboot" = { UID := "uid-1", ExistingJobDeleted := true, Complete := false }
    ∧ lifecycle4.job "netboot" = { UID := "uid-1", ExistingJobDeleted := true, Complete := true } := by
  decide

theorem track_fetch_error_is_reported_witness :
    ((trackState []).job "netboot").UID ≠ ""
    ∧ (handleJob fakeEnv (trackState []) [] "netboot").val?
        = some ({ Requeue := false, RequeueAfter := 0 },
            some (GoError.wrapError "error getting job: not found" fakeNotFound))
    ∧ (handleJob fakeEnv (trackState []) [] "netboot").st.sleeps = [] :=
  ⟨by decide,
    (track_fetch_error_is_reported fakeEnv (trackState []) [] "netboot" fakeNotFound
      (by decide) (by decide) (by decide) rfl).1,
    (track_fetch_error_is_reported fakeEnv (trackState []) [] "netboot" fakeNotFound
      (by decide) (by decide) (by decide) rfl).2.1⟩

theorem create_waits_for_deletion_witness :
    metav1.IsZero (storedJob "abc" (some 5) []).DeletionTimestamp = false
    ∧ (handleJob fakeEnv (createState { jobs := [storedJob "abc" (some 5) []] }) []
        "netboot").val? = some ({ Requeue := true }, none)
    ∧ (handleJob fakeEnv (createState { jobs := [storedJob "abc" (some 5) []] }) []
        "netboot").st.requests = [Request.get { Name := "netboot", Namespace := "default" }] :=
  ⟨by decide,
    (create_waits_for_deletion fakeEnv (createState { jobs := [storedJob "abc" (some 5) []] }) []
      "netboot" (storedJob "abc" (some 5) []) (by decide) (by decide) rfl rfl).1,
    (create_waits_for_deletion fakeEnv (createState { jobs := [storedJob "abc" (some 5) []] }) []
      "netboot" (storedJob "abc" (some 5) []) (by decide) (by decide) rfl rfl).2.1⟩

theorem create_without_bmc_fails_witness :
    ((createState { hardware := some { Name := "machine1", BMCRef := none } }).job
        "netboot").UID = ""
    ∧ (handleJob fakeEnv (createState { hardware := some { Name := "machine1", BMCRef := none } })
        [] "netboot").val?
        = some ({ Requeue := false, RequeueAfter := 0 },
            some (GoError.errorString "hardware \"machine1\" does not have a BMC" false)) :=
  ⟨by decide,
    (create_without_bmc_fails fakeEnv
      (createState { hardware := some { Name := "machine1", BMCRef := none } }) [] "netboot"
      fakeNotFound { Name := "machine1", BMCRef := none } (by decide) (by decide) rfl rfl rfl).1⟩

theorem done_is_inert_witness :
    (doneState.job "netboot").Complete = true
    ∧ (handleJob fakeEnv doneState [] "netboot").val? = some ({ Requeue := true }, none)
    ∧ (handleJob fakeEnv doneState [] "netboot").st.requests = []
    ∧ (handleJob fakeEnv doneState [] "netboot").st.sleeps = [] :=
  ⟨by decide,
    (done_is_inert fakeEnv doneState [] "netboot" (by decide) (by decide) (by decide)).2.1,
    (done_is_inert fakeEnv doneState [] "netboot" (by decide) (by decide) (by decide)).2.2.1,
    (done_is_inert fakeEnv doneState [] "netboot" (by decide) (by decide) (by decide)).2.2.2.1⟩

theorem cleanup_failure_is_atomic_witness :
    (cleanupDownState.job "netboot").ExistingJobDeleted = false
    ∧ fakeUnavailable.IsNotFound = false
    ∧ (handleJob fakeEnv cleanupDownState [] "netboot").val?
        = some ({ Requeue := false, RequeueAfter := 0 },
            some (GoError.wrapError
              "error deleting job.bmc.tinkerbell.org object: connection refused"
              fakeUnavailable))
    ∧ (handleJob fakeEnv cleanupDownState [] "netboot").st.job "netboot"
        = { UID := "old", ExistingJobDeleted := false, Complete := true } :=
  ⟨by decide, by decide,
    (cleanup_failure_is_atomic fakeEnv cleanupDownState [] "netboot" fakeUnavailable
      (by decide) rfl (by decide)).1,
    (cleanup_failure_is_atomic fakeEnv cleanupDownState [] "netboot" fakeUnavailable
      (by decide) rfl (by decide)).2.2.1⟩

theorem failed_takes_precedence_witness :
    (storedJob "uid-1" none [completedTrue, failedTrue]).HasCondition
        rufio.JobConditionType.JobFailed rufio.ConditionStatus.ConditionTrue = true
    ∧ (storedJob "uid-1" none [completedTrue, failedTrue]).HasCondition
        rufio.JobConditionType.JobCompleted rufio.ConditionStatus.ConditionTrue = true
    ∧ (handleJob fakeEnv (trackState [storedJob "uid-1" none [completedTrue, failedTrue]]) []
        "netboot").val? = some ({}, some (GoError.errorString "job failed" false))
    ∧ ((handleJob fakeEnv (trackState [storedJob "uid-1" none [completedTrue, failedTrue]]) []
        "netboot").st.job "netboot").Complete = false :=
  ⟨by decide, by decide,
    (failed_takes_precedence fakeEnv
      (trackState [storedJob "uid-1" none [completedTrue, failedTrue]]) [] "netboot"
      (storedJob "uid-1" none [completedTrue, failedTrue])
      (by decide) (by decide) (by decide) rfl (by decide) (by decide)).1,
    (failed_takes_precedence fakeEnv
      (trackState [storedJob "uid-1" none [completedTrue, failedTrue]]) [] "netboot"
      (storedJob "uid-1" none [completedTrue, failedTrue])
      (by decide) (by decide) (by decide) rfl (by decide) (by decide)).2.2.2.2⟩

/-- C16, as stated, fails: in the Create phase the store already holds the job,
the call adopts its UID and sends only the get request (no create, the store
keeps its one job), yet it records SetupComplete with message "job created". -/
theorem setup_complete_without_create_counterexample :
    (createState { jobs := [storedJob "abc" none []] }).job "netboot"
        = { UID := "", ExistingJobDeleted := true, Complete := false }
    ∧ (handleJob fakeEnv (createState { jobs := [storedJob "abc" none []] }) []
        "netboot").st.requests = [Request.get { Name := "netboot", Namespace := "default" }]
    ∧ (handleJob fakeEnv (createState { jobs := [storedJob "abc" none []] }) []
        "netboot").st.client.jobs = [storedJob "abc" none []]
    ∧ (handleJob fakeEnv (createState { jobs := [storedJob "abc" none []] }) []
        "netboot").st.workflow.Status.Conditions.map (fun c => (c.Type_, c.Reason, c.Message))
        = [(WorkflowConditionType.NetbootJobSetupComplete, "Created", "job created")] := by
  decide

theorem setup_condition_follows_error_witness :
    ((createState { hardware := some fakeHardware }).job "netboot").ExistingJobDeleted = true
    ∧ ((createState { hardware := some fakeHardware }).job "netboot").UID = ""
    ∧ ∃ c, (handleJob fakeEnv (createState { hardware := some fakeHardware }) []
          "netboot").st.workflow.Status.Conditions
        = setConditionList (createState { hardware := some fakeHardware }).workflow.Status.Conditions c
      ∧ (c.Type_ = WorkflowConditionType.NetbootJobSetupComplete
        ∨ c.Type_ = WorkflowConditionType.NetbootJobSetupFailed) :=
  ⟨by decide, by decide,
    (setup_condition_follows_error fakeEnv (createState { hardware := some fakeHardware }) []
      "netboot" (by decide) (by decide)).elim
      (fun ⟨_, _, _, h, _⟩ => ⟨_, h, Or.inl rfl⟩)
      (fun ⟨_, _, _, _, h⟩ => ⟨_, h, Or.inr rfl⟩)⟩

/-- C11, as stated, fails: for the two distinct job names "netboot" and
"iso-mount" `handleJob` records a condition of the same type,
NetbootJobFailed, and the condition written for "iso-mount" replaces the one
written for "netboot". -/
theorem same_condition_type_for_two_jobs_counterexample :
    jobNameNetboot ≠ jobNameISOMount
    ∧ (handleJob fakeEnv twoJobsState [] jobNameNetboot).st.workflow.Status.Conditions.map
        (fun c => (c.Type_, c.Message))
        = [(WorkflowConditionType.NetbootJobFailed, "job failed")]
    ∧ (handleJob fakeEnv twoJobsState [] jobNameISOMount).st.workflow.Status.Conditions.map
        (fun c => (c.Type_, c.Message))
        = [(WorkflowConditionType.NetbootJobFailed, "error getting job: not found")]
    ∧ (handleJob fakeEnv (handleJob fakeEnv twoJobsState [] jobNameNetboot).st []
        jobNameISOMount).st.workflow.Status.Conditions.map (fun c => (c.Type_, c.Message))
        = [(WorkflowConditionType.NetbootJobFailed, "error getting job: not found")] := by
  decide

/-- C14: the code at the failing input. In the Create phase the lookup of the
job fails with "connection refused", which is not "not found"; the call goes
on to the hardware lookup and sends the create request, returns requeue=true
with no error and records SetupComplete. -/
theorem lookup_error_still_creates :
    (createState { hardware := some fakeHardware }).job "netboot"
        = { UID := "", ExistingJobDeleted := true, Complete := false }
    ∧ (getDownEnv.Get (createState { hardware := some fakeHardware }).client
        { Name := "netboot", Namespace := "default" }).1 = Except.error fakeUnavailable
    ∧ fakeUnavailable.IsNotFound = false
    ∧ (handleJob getDownEnv (createState { hardware := some fakeHardware }) []
        "netboot").val? = some ({ Requeue := true }, none)
    ∧ (handleJob getDownEnv (createState { hardware := some fakeHardware }) []
        "netboot").st.requests.map Request.isCreate = [false, false, true]
    ∧ (handleJob getDownEnv (createState { hardware := some fakeHardware }) []
        "netboot").st.workflow.Status.Conditions.map (fun c => (c.Type_, c.Message))
        = [(WorkflowConditionType.NetbootJobSetupComplete, "job created")] :=
  ⟨by decide, rfl, by decide, by decide, by decide, by decide⟩

/-- C15, as stated, fails: on the zero-value workflow status (nil job map) the
call reads the entry as the zero value, sends the delete request, and then
panics on the assignment into the nil map: it returns nothing and the map
holds no entry afterwards. -/
theorem zero_status_cleanup_panics_counterexample :
    zeroStatusState.workflow.Status.BootOptions.Jobs = none
    ∧ zeroStatusState.job "netboot" = { UID := "", ExistingJobDeleted := false, Complete := false }
    ∧ (handleJob fakeEnv zeroStatusState [] "netboot").panic?
        = some "assignment to entry in nil map"
    ∧ (handleJob fakeEnv zeroStatusState [] "netboot").val? = none
    ∧ (handleJob fakeEnv zeroStatusState [] "netboot").st.requests
        = [deleteRequest "netboot" "default"]
    ∧ (handleJob fakeEnv zeroStatusState [] "netboot").st.workflow.Status.BootOptions.Jobs = none
    ∧ (handleJob fakeEnv zeroStatusState [] "netboot").st.job "netboot"
        = { UID := "", ExistingJobDeleted := false, Complete := false } :=
  ⟨rfl, by decide, by decide, by decide, by decide, rfl, by decide⟩

theorem missing_entry_is_born_in_cleanup_witness :
    (fakeState {} noJobs).workflow.Status.BootOptions.Jobs = some (fun _ => none)
    ∧ (handleJob fakeEnv (fakeState {} noJobs) [] "netboot").panic? = none
    ∧ (handleJob fakeEnv (fakeState {} noJobs) [] "netboot").val?
        = some ({ Requeue := true }, none)
    ∧ (handleJob fakeEnv (fakeState {} noJobs) [] "netboot").st.job "netboot"
        = { UID := "", ExistingJobDeleted := true, Complete := false } :=
  ⟨rfl,
    (missing_entry_is_born_in_cleanup fakeEnv (fakeState {} noJobs) [] "netboot"
      (fun _ => none) rfl rfl (Or.inr ⟨fakeNotFound, rfl, rfl⟩)).2.2.1,
    (missing_entry_is_born_in_cleanup fakeEnv (fakeState {} noJobs) [] "netboot"
      (fun _ => none) rfl rfl (Or.inr ⟨fakeNotFound, rfl, rfl⟩)).2.2.2.1,
    by decide⟩

end workflow

/-! ## Theorems on `PullImage` -/

namespace worker

theorem firstError_mem (lines : List PullLine) (msg : String)
    (h : firstError lines = some msg) : ∃ st, PullLine.record st (some msg) ∈ lines := by
  induction lines with
  | nil => simp [firstError] at h
  | cons l rest ih =>
    cases l with
    | malformed =>
      simp only [firstError] at h
      obtain ⟨st, hst⟩ := ih h
      exact ⟨st, List.mem_cons_of_mem _ hst⟩
    | record st e =>
      cases e with
      | none =>
        simp only [firstError] at h
        obtain ⟨st2, hst⟩ := ih h
        exact ⟨st2, List.mem_cons_of_mem _ hst⟩
      | some m =>
        simp only [firstError, Option.some.injEq] at h
        subst h
        exact ⟨st, List.mem_cons_self _ _⟩

theorem firstError_of_mem (lines : List PullLine) (st : Option String) (m : String)
    (h : PullLine.record st (some m) ∈ lines) : ∃ msg, firstError lines = some msg := by
  induction lines with
  | nil => simp at h
  | cons l rest ih =>
    cases l with
    | malformed =>
      simp only [List.mem_cons] at h
      rcases h with h | h
      · cases h
      · simpa [firstError] using ih h
    | record st2 e =>
      cases e with
      | some m2 => exact ⟨m2, rfl⟩
      | none =>
        simp only [List.mem_cons, PullLine.record.injEq] at h
        rcases h with ⟨_, h⟩ | h
        · cases h
        · simpa [firstError] using ih h

theorem firstError_none (lines : List PullLine)
    (h : ∀ st m, PullLine.record st (some m) ∉ lines) : firstError lines = none := by
  cases hf : firstError lines with
  | none => rfl
  | some msg =>
    obtain ⟨st, hst⟩ := firstError_mem lines msg hf
    exact absurd hst (h st msg)

/-- The four rows of `TestContainerManagerPullImage` pass against the model of
`PullImage`. -/
theorem test_cases_pass : ∀ tc ∈ cases, testPasses tc = true := by
  decide

/-- C13: when the pull call fails with an error, or the stream it returns
carries a line with an embedded error message, `PullImage` returns nil if the
local inspect succeeds and, if the local inspect fails, an error whose text is
"DOCKER PULL: " followed by the text of the call error, respectively by the
first embedded message of the stream. When the call succeeds and no line of the
stream carries an error message, `PullImage` returns nil. -/
theorem pull_falls_back_on_local_image (cli : DockerClient) (registry : RegistryConnDetails)
    (image : String) :
    (∀ e, cli.ImagePull image registry = Except.error e →
      (cli.ImageInspectWithRaw image = none → PullImage cli registry image = none)
      ∧ (∀ ie, cli.ImageInspectWithRaw image = some ie →
          ∃ err, PullImage cli registry image = some err
            ∧ err.Error = "DOCKER PULL: " ++ e.Error))
    ∧ (∀ lines st m, cli.ImagePull image registry = Except.ok lines →
      PullLine.record st (some m) ∈ lines →
      ∃ msg, firstError lines = some msg
        ∧ (∃ st2, PullLine.record st2 (some msg) ∈ lines)
        ∧ (cli.ImageInspectWithRaw image = none → PullImage cli registry image = none)
        ∧ (∀ ie, cli.ImageInspectWithRaw image = some ie →
            ∃ err, PullImage cli registry image = some err
              ∧ err.Error = "DOCKER PULL: " ++ msg))
    ∧ (∀ lines, cli.ImagePull image registry = Except.ok lines →
      (∀ st m, PullLine.record st (some m) ∉ lines) →
      PullImage cli registry image = none)
    ∧ PullImage
        (fakeDockerClient.asClient
          { imagePullContent := [PullLine.record none none, PullLine.record none none] })
        registry image = none := by
  refine ⟨?_, ?_, ?_, rfl⟩
  · intro e he
    constructor
    · intro hi
      simp [PullImage, provisional, he, hi]
    · intro ie hi
      exact ⟨fmt.Errorf_w "DOCKER PULL: " e, by simp [PullImage, provisional, he, hi], rfl⟩
  · intro lines st m hl hmem
    obtain ⟨msg, hmsg⟩ := firstError_of_mem lines st m hmem
    refine ⟨msg, hmsg, firstError_mem lines msg hmsg, ?_, ?_⟩
    · intro hi
      simp [PullImage, provisional, hl, hmsg, hi]
    · intro ie hi
      exact ⟨fmt.Errorf_w "DOCKER PULL: " (GoError.errorString msg false),
        by simp [PullImage, provisional, hl, hmsg, hi], rfl⟩
  · intro lines hl hnone
    simp [PullImage, hl, firstError_none lines hnone]

end worker
